import Mathlib

/-!
Shallow embedding of the valueinvesting repository's core:
the financial-metrics store (`database.py`), the derivation engine
(average FCF and FCF yield), the FCF acquisition rule with TTM fallback
(`stock.py`), the ticker resolver (`ticker_resolver.py`), and the two
refresh batch loops (`app.py`).

Real numbers (Python floats) are modelled as rationals `ℚ`; SQL nulls and
Python `None` as `Option`.  The SQLite table keyed by the primary key
`ticker` is modelled as a list of records; the primary-key constraint is
expressed, where a proof needs it, as the records having pairwise distinct
`ticker` fields.  `datetime.now().isoformat()` is modelled by passing the
current timestamp string explicitly.
-/

namespace ValueInvesting

/-- Python's `str.upper()` (over the ASCII strings this program handles). -/
def pyUpper (s : String) : String := ⟨s.data.map Char.toUpper⟩

/-- Python's `str.lower()` (over the ASCII strings this program handles). -/
def pyLower (s : String) : String := ⟨s.data.map Char.toLower⟩

/-- Python's `str.strip()`: drop whitespace from both ends. -/
def pyStrip (s : String) : String :=
  ⟨((s.data.dropWhile Char.isWhitespace).reverse.dropWhile
      Char.isWhitespace).reverse⟩

/-- Round-half-to-even to the nearest integer, the behaviour of Python's
builtin `round` (used by `round(x, 3)` in `database.py`). -/
def rhe (q : ℚ) : ℤ :=
  if q - ⌊q⌋ < 1/2 then ⌊q⌋
  else if 1/2 < q - ⌊q⌋ then ⌊q⌋ + 1
  else if ⌊q⌋ % 2 = 0 then ⌊q⌋ else ⌊q⌋ + 1

/-- `round(x, 3)` from Python: round to 3 decimal places, half to even. -/
def round3 (q : ℚ) : ℚ := (rhe (q * 1000) : ℚ) / 1000

/-- `StockDatabase._calculate_average_fcf` from `database.py`:
drop `None`s; if nothing remains return `None`; if any remaining value is
negative return `None`; else the arithmetic mean of the remaining values. -/
def calculate_average_fcf (fcf_values : List (Option ℚ)) : Option ℚ :=
  let valid_values := fcf_values.filterMap id
  if valid_values.isEmpty then none
  else if valid_values.any (fun v => decide (v < 0)) then none
  else some (valid_values.sum / (valid_values.length : ℚ))

/-- `StockDatabase._calculate_fcf_yield` from `database.py`:
`None` if either input is `None` or the enterprise value is `≤ 0`, else
`round(average_fcf / enterprise_value, 3)`. -/
def calculate_fcf_yield (average_fcf : Option ℚ) (enterprise_value : Option ℚ) :
    Option ℚ :=
  match average_fcf, enterprise_value with
  | none, _ => none
  | _, none => none
  | some a, some ev => if ev ≤ 0 then none else some (round3 (a / ev))

/-- `StockRecord` from `database.py` (one row of `stock_financials`). -/
structure StockRecord where
  ticker : String
  company_name : String
  enterprise_value : Option ℚ
  fcf_2025 : Option ℚ
  fcf_2024 : Option ℚ
  fcf_2023 : Option ℚ
  fcf_2022 : Option ℚ
  fcf_2021 : Option ℚ
  average_fcf : Option ℚ
  fcf_yield : Option ℚ
  last_updated : String
deriving DecidableEq, Repr

/-- The `stock_financials` table: a list of rows.  The SQLite `PRIMARY KEY`
on `ticker` corresponds to the rows having pairwise distinct tickers. -/
abbrev DB := List StockRecord

/-- The primary-key constraint of the `stock_financials` table. -/
def DBWF (db : DB) : Prop :=
  List.Pairwise (fun a b : StockRecord => a.ticker ≠ b.ticker) db

/-- The five stored FCF year columns of a row, in the order
`[fcf_2025, fcf_2024, fcf_2023, fcf_2022, fcf_2021]` used throughout
`database.py`. -/
def storedFcfValues (r : StockRecord) : List (Option ℚ) :=
  [r.fcf_2025, r.fcf_2024, r.fcf_2023, r.fcf_2022, r.fcf_2021]

/-- The FCF column for a given year (dynamic `fcf_{year}` attribute access). -/
def getFcf (r : StockRecord) (year : ℤ) : Option ℚ :=
  if year = 2025 then r.fcf_2025
  else if year = 2024 then r.fcf_2024
  else if year = 2023 then r.fcf_2023
  else if year = 2022 then r.fcf_2022
  else if year = 2021 then r.fcf_2021
  else none

/-- Setting the FCF column for a given year (`SET fcf_{year} = ?`). -/
def setFcf (r : StockRecord) (year : ℤ) (value : Option ℚ) : StockRecord :=
  if year = 2025 then { r with fcf_2025 := value }
  else if year = 2024 then { r with fcf_2024 := value }
  else if year = 2023 then { r with fcf_2023 := value }
  else if year = 2022 then { r with fcf_2022 := value }
  else if year = 2021 then { r with fcf_2021 := value }
  else r

/-- The input dictionary taken by `StockDatabase.upsert` (`data`): the
`ticker` key plus the optional financial fields read with `data.get`. -/
structure UpsertData where
  ticker : String
  enterprise_value : Option ℚ
  fcf_2025 : Option ℚ
  fcf_2024 : Option ℚ
  fcf_2023 : Option ℚ
  fcf_2022 : Option ℚ
  fcf_2021 : Option ℚ
deriving DecidableEq, Repr

/-- The row written by `StockDatabase.upsert`: derived fields recomputed
from the incoming data, `last_updated` stamped with the current time. -/
def mkUpsertRecord (data : UpsertData) (company_name : String) (now : String) :
    StockRecord :=
  let average_fcf := calculate_average_fcf
    [data.fcf_2025, data.fcf_2024, data.fcf_2023, data.fcf_2022, data.fcf_2021]
  let fcf_yield := calculate_fcf_yield average_fcf data.enterprise_value
  { ticker := data.ticker
    company_name := company_name
    enterprise_value := data.enterprise_value
    fcf_2025 := data.fcf_2025
    fcf_2024 := data.fcf_2024
    fcf_2023 := data.fcf_2023
    fcf_2022 := data.fcf_2022
    fcf_2021 := data.fcf_2021
    average_fcf := average_fcf
    fcf_yield := fcf_yield
    last_updated := now }

/-- `StockDatabase.upsert`: `INSERT OR REPLACE` keyed on `data["ticker"]`. -/
def upsert (db : DB) (data : UpsertData) (company_name : String) (now : String) :
    DB :=
  let newRow := mkUpsertRecord data company_name now
  if (db : List StockRecord).any (fun r => r.ticker == data.ticker) then
    (db : List StockRecord).map (fun r => if r.ticker == data.ticker then newRow else r)
  else db ++ [newRow]

/-- `StockDatabase.get`: `SELECT * ... WHERE ticker = ?` with the query
ticker uppercased. -/
def dbGet (db : DB) (ticker : String) : Option StockRecord :=
  (db : List StockRecord).find? (fun r => r.ticker == pyUpper ticker)

/-- `StockDatabase.update_fcf`: reject an out-of-range year with a
`ValueError`, return `false` when the ticker has no row, otherwise replace
that year's FCF, recompute both derived fields from the merged year set and
the existing enterprise value, and write. -/
def update_fcf (db : DB) (ticker : String) (year : ℤ) (value : Option ℚ)
    (now : String) : Except String (Bool × DB) :=
  if ¬(year = 2021 ∨ year = 2022 ∨ year = 2023 ∨ year = 2024 ∨ year = 2025) then
    Except.error s!"Year must be 2021-2025, got {year}"
  else
    match dbGet db ticker with
    | none => Except.ok (false, db)
    | some record =>
      let fcf_values : List (Option ℚ) :=
        [ if year = 2025 then value else record.fcf_2025,
          if year = 2024 then value else record.fcf_2024,
          if year = 2023 then value else record.fcf_2023,
          if year = 2022 then value else record.fcf_2022,
          if year = 2021 then value else record.fcf_2021 ]
      let average_fcf := calculate_average_fcf fcf_values
      let fcf_yield := calculate_fcf_yield average_fcf record.enterprise_value
      let db2 := (db : List StockRecord).map (fun r =>
        if r.ticker == pyUpper ticker then
          { setFcf r year value with
              average_fcf := average_fcf
              fcf_yield := fcf_yield
              last_updated := now }
        else r)
      Except.ok (true, db2)

/-- `StockDatabase.update_enterprise_value`: return `false` when the ticker
has no row, otherwise replace the enterprise value, recompute `fcf_yield`
from the stored `average_fcf` and the new enterprise value, and write. -/
def update_enterprise_value (db : DB) (ticker : String) (value : Option ℚ)
    (now : String) : Bool × DB :=
  match dbGet db ticker with
  | none => (false, db)
  | some record =>
    let fcf_yield := calculate_fcf_yield record.average_fcf value
    let db2 := (db : List StockRecord).map (fun r =>
      if r.ticker == pyUpper ticker then
        { r with
            enterprise_value := value
            fcf_yield := fcf_yield
            last_updated := now }
      else r)
    (true, db2)

/-- The record-level invariant the spec states for every write: both derived
columns equal their recomputation from the stored input columns. -/
def derivedOK (r : StockRecord) : Prop :=
  r.average_fcf = calculate_average_fcf (storedFcfValues r) ∧
  r.fcf_yield = calculate_fcf_yield r.average_fcf r.enterprise_value

instance (r : StockRecord) : Decidable (derivedOK r) := by
  unfold derivedOK; infer_instance

/-! ### `stock.py`: FCF acquisition with the TTM fallback

The pandas cash-flow statements are modelled as already-extracted data:
the annual statement as `Option (List (ℤ × Option ℚ))` — `none` when the
statement is empty or has no "Free Cash Flow" row, otherwise the list of
columns in statement order, each carrying its fiscal year and the FCF value
of that column (`none` standing for a missing/NaN cell) — and the quarterly
statement as `Option (List (Option ℚ))`, columns ordered most recent
first as in yfinance. -/

/-- `FreeCashFlowData` from `stock.py`. -/
structure FreeCashFlowData where
  fcf_2025 : Option ℚ := none
  fcf_2024 : Option ℚ := none
  fcf_2023 : Option ℚ := none
  fcf_2022 : Option ℚ := none
  fcf_2021 : Option ℚ := none
deriving DecidableEq, Repr

/-- `FreeCashFlowData.calculate_average` from `stock.py` (same rules as
`StockDatabase._calculate_average_fcf`). -/
def FreeCashFlowData.calculate_average (d : FreeCashFlowData) : Option ℚ :=
  calculate_average_fcf [d.fcf_2025, d.fcf_2024, d.fcf_2023, d.fcf_2022, d.fcf_2021]

/-- `Stock.TARGET_YEARS`. -/
def TARGET_YEARS : List ℤ := [2025, 2024, 2023, 2022, 2021]

/-- `setattr(result, f"fcf_{year}", value)` for a target year. -/
def setFcfData (d : FreeCashFlowData) (year : ℤ) (v : ℚ) : FreeCashFlowData :=
  if year = 2025 then { d with fcf_2025 := some v }
  else if year = 2024 then { d with fcf_2024 := some v }
  else if year = 2023 then { d with fcf_2023 := some v }
  else if year = 2022 then { d with fcf_2022 := some v }
  else if year = 2021 then { d with fcf_2021 := some v }
  else d

/-- The annual loop of `Stock.get_free_cash_flow`: walk the columns, and
for each column whose year is a target year and whose cell is a valid
(non-missing, non-NaN) value, set that year's field. -/
def annualFold (d : FreeCashFlowData) : List (ℤ × Option ℚ) → FreeCashFlowData
  | [] => d
  | (year, val) :: rest =>
    let d' :=
      if year ∈ TARGET_YEARS then
        match val with
        | some v => setFcfData d year v
        | none => d
      else d
    annualFold d' rest

/-- `Stock._calculate_ttm_fcf`: `none` when the quarterly statement is
empty or lacks a "Free Cash Flow" row; otherwise collect the valid values
among the first four columns and return their sum only when exactly four
are valid. -/
def calculate_ttm_fcf (quarterly : Option (List (Option ℚ))) : Option ℚ :=
  match quarterly with
  | none => none
  | some cols =>
    let valid_quarters := (cols.take 4).filterMap id
    if valid_quarters.length = 4 then some valid_quarters.sum else none

/-- The annual phase of `Stock.get_free_cash_flow` alone (no TTM step). -/
def annualOnlyFcf (annual : Option (List (ℤ × Option ℚ))) : FreeCashFlowData :=
  match annual with
  | some cols => annualFold {} cols
  | none => {}

/-- `Stock.get_free_cash_flow`: fill the years from the annual statement;
then, if 2025 is still unset, substitute the TTM value when available. -/
def get_free_cash_flow (annual : Option (List (ℤ × Option ℚ)))
    (quarterly : Option (List (Option ℚ))) : FreeCashFlowData :=
  if (annualOnlyFcf annual).fcf_2025 = none then
    match calculate_ttm_fcf quarterly with
    | some ttm => { annualOnlyFcf annual with fcf_2025 := some ttm }
    | none => annualOnlyFcf annual
  else annualOnlyFcf annual

/-! ### `ticker_resolver.py` -/

/-- `Company` from `ticker_resolver.py`. -/
structure Company where
  ticker : String
  title : String
  cik_str : Option ℤ := none
deriving DecidableEq, Repr

/-- Python's substring test `needle in haystack` on the underlying
character lists. -/
def charsContain (needle : List Char) : List Char → Bool
  | [] => needle.isEmpty
  | c :: rest => needle.isPrefixOf (c :: rest) || charsContain needle rest

/-- `needle in haystack` on strings. -/
def strContains (haystack needle : String) : Bool :=
  charsContain needle.data haystack.data

/-- Insert-or-replace into an association list: the model of one
`self._ticker_map[key] = company` assignment. -/
def assocPut (m : List (String × Company)) (k : String) (c : Company) :
    List (String × Company) :=
  if m.any (fun p => p.1 == k) then
    m.map (fun p => if p.1 == k then (k, c) else p)
  else m ++ [(k, c)]

/-- The `_ticker_map` built by `TickerResolver._load_data`: one entry per
company, keyed by the uppercased ticker, later entries overwriting. -/
def buildTickerMap (companies : List Company) : List (String × Company) :=
  companies.foldl (fun m c => assocPut m (pyUpper c.ticker) c) []

/-- Dictionary lookup in the `_ticker_map`. -/
def assocGet (m : List (String × Company)) (k : String) : Option Company :=
  (m.find? (fun p => p.1 == k)).map (·.2)

/-- `TickerResolver.resolve`: strip, try the exact (case-insensitive)
ticker match, then the first partial company-name match in load order,
then fall back to the uppercased input. -/
def resolve (companies : List Company) (user_input : String) : String :=
  match assocGet (buildTickerMap companies) (pyUpper (pyStrip user_input)) with
  | some c => c.ticker
  | none =>
    match companies.find? (fun c =>
        strContains (pyLower c.title) (pyLower (pyStrip user_input))) with
    | some c => c.ticker
    | none => pyUpper (pyStrip user_input)

/-! ### `app.py`: the two refresh batch loops

The Yahoo-Finance provider is modelled as a function from ticker to
`Except`: `Except.error` stands for a raised exception (caught by the
per-ticker `try`/`except`), `Except.ok` for a normal return. -/

/-- Insert a row into a ticker-sorted list (for `ORDER BY ticker`). -/
def insertByTicker (r : StockRecord) : List StockRecord → List StockRecord
  | [] => [r]
  | x :: xs =>
    if r.ticker < x.ticker then r :: x :: xs else x :: insertByTicker r xs

/-- `StockDatabase.get_all`: all rows ordered by ticker ascending. -/
def get_all (db : DB) : List StockRecord :=
  (db : List StockRecord).foldr insertByTicker []

/-- Whether a provider call raised (its `Except` result is an error). -/
def isProviderError {α : Type} (x : Except String α) : Bool :=
  match x with
  | .error _ => true
  | .ok _ => false

/-- Whether an enterprise-value provider call returned a non-null value. -/
def isOkSome (x : Except String (Option ℚ)) : Bool :=
  match x with
  | .ok (some _) => true
  | _ => false

/-- The body of the `refresh_enterprise_values` loop over the remaining
records, threading the database and returning `(db, success, errors)`. -/
def refreshEVLoop (provider : String → Except String (Option ℚ)) (now : String) :
    DB → List StockRecord → DB × ℕ × ℕ
  | db, [] => (db, 0, 0)
  | db, r :: rs =>
    match provider r.ticker with
    | .error _ =>
      ((refreshEVLoop provider now db rs).1,
       (refreshEVLoop provider now db rs).2.1,
       (refreshEVLoop provider now db rs).2.2 + 1)
    | .ok none => refreshEVLoop provider now db rs
    | .ok (some v) =>
      ((refreshEVLoop provider now
          (update_enterprise_value db r.ticker (some v) now).2 rs).1,
       (refreshEVLoop provider now
          (update_enterprise_value db r.ticker (some v) now).2 rs).2.1 + 1,
       (refreshEVLoop provider now
          (update_enterprise_value db r.ticker (some v) now).2 rs).2.2)

/-- `refresh_enterprise_values` from `app.py`: iterate all stored records;
per ticker, fetch the EV and, when non-null, write it through
`update_enterprise_value` and count a success; a raised exception is
caught and counted as an error without stopping the batch. -/
def refresh_enterprise_values (db : DB)
    (provider : String → Except String (Option ℚ)) (now : String) :
    DB × ℕ × ℕ :=
  refreshEVLoop provider now db (get_all db)

/-- The inner year loop of `refresh_fcf_values`: for each target year with
a non-null fetched value, `update_fcf`; a raise would escape to the
per-ticker handler (it cannot happen, the years being in range). -/
def applyFcfYears (db : DB) (ticker : String) (fcf : FreeCashFlowData)
    (now : String) : Except String DB :=
  ([(2025, fcf.fcf_2025), (2024, fcf.fcf_2024), (2023, fcf.fcf_2023),
    (2022, fcf.fcf_2022), (2021, fcf.fcf_2021)] : List (ℤ × Option ℚ)).foldlM
    (fun d p =>
      match p.2 with
      | some v => (update_fcf d ticker p.1 (some v) now).map (·.2)
      | none => pure d) db

/-- The body of the `refresh_fcf_values` loop over the remaining records. -/
def refreshFcfLoop (provider : String → Except String FreeCashFlowData)
    (now : String) : DB → List StockRecord → DB × ℕ × ℕ
  | db, [] => (db, 0, 0)
  | db, r :: rs =>
    match provider r.ticker with
    | .error _ =>
      ((refreshFcfLoop provider now db rs).1,
       (refreshFcfLoop provider now db rs).2.1,
       (refreshFcfLoop provider now db rs).2.2 + 1)
    | .ok fcf =>
      match applyFcfYears db r.ticker fcf now with
      | .error _ =>
        ((refreshFcfLoop provider now db rs).1,
         (refreshFcfLoop provider now db rs).2.1,
         (refreshFcfLoop provider now db rs).2.2 + 1)
      | .ok db1 =>
        ((refreshFcfLoop provider now db1 rs).1,
         (refreshFcfLoop provider now db1 rs).2.1 + 1,
         (refreshFcfLoop provider now db1 rs).2.2)

/-- `refresh_fcf_values` from `app.py`: iterate all stored records; per
ticker, fetch the five-year FCF data and write each non-null year through
`update_fcf`, counting one success per non-failing ticker; a raised
exception is caught and counted as an error without stopping the batch. -/
def refresh_fcf_values (db : DB)
    (provider : String → Except String FreeCashFlowData) (now : String) :
    DB × ℕ × ℕ :=
  refreshFcfLoop provider now db (get_all db)

/-! ### Helper lemmas -/

lemma mkUpsertRecord_derivedOK (data : UpsertData) (company_name now : String) :
    derivedOK (mkUpsertRecord data company_name now) := ⟨rfl, rfl⟩

lemma calculate_average_fcf_cases (l : List (Option ℚ)) :
    (l.filterMap id = [] → calculate_average_fcf l = none) ∧
    ((∃ x ∈ l.filterMap id, x < 0) → calculate_average_fcf l = none) ∧
    (l.filterMap id ≠ [] → (∀ x ∈ l.filterMap id, 0 ≤ x) →
      calculate_average_fcf l =
        some ((l.filterMap id).sum / ((l.filterMap id).length : ℚ))) := by
  unfold calculate_average_fcf
  refine ⟨fun h => by simp [h], fun hx => ?_, fun hne hall => ?_⟩
  · obtain ⟨x, hx, hneg⟩ := hx
    have hne : l.filterMap id ≠ [] := by
      intro h; rw [h] at hx; cases hx
    have hany : (l.filterMap id).any (fun v => decide (v < 0)) = true :=
      List.any_eq_true.mpr ⟨x, hx, by simpa using hneg⟩
    simp [hne, hany]
  · have hany : (l.filterMap id).any (fun v => decide (v < 0)) = false := by
      rw [List.any_eq_false]
      intro x hx
      simpa using not_lt.mpr (hall x hx)
    simp [hne, hany]

/-! ### Claims -/

/-- C2: for every sequence of five optional FCF values, the average
computation returns null when no value is present; returns null when at
least one present value is negative; and otherwise returns the arithmetic
mean of exactly the present values. -/
theorem C2_compute_average (v1 v2 v3 v4 v5 : Option ℚ) :
    (([v1, v2, v3, v4, v5] : List (Option ℚ)).filterMap id = [] →
      calculate_average_fcf [v1, v2, v3, v4, v5] = none) ∧
    ((∃ x ∈ ([v1, v2, v3, v4, v5] : List (Option ℚ)).filterMap id, x < 0) →
      calculate_average_fcf [v1, v2, v3, v4, v5] = none) ∧
    (([v1, v2, v3, v4, v5] : List (Option ℚ)).filterMap id ≠ [] →
      (∀ x ∈ ([v1, v2, v3, v4, v5] : List (Option ℚ)).filterMap id, 0 ≤ x) →
      calculate_average_fcf [v1, v2, v3, v4, v5] =
        some ((([v1, v2, v3, v4, v5] : List (Option ℚ)).filterMap id).sum /
          ((([v1, v2, v3, v4, v5] : List (Option ℚ)).filterMap id).length : ℚ))) :=
  calculate_average_fcf_cases [v1, v2, v3, v4, v5]

/-- Witness for C2 at the spec's own example: FCF 100 and 200 with the
rest missing average to 150. -/
theorem C2_compute_average_witness :
    calculate_average_fcf [some 100, some 200, none, none, none] = some 150 := by
  have h := (C2_compute_average (some 100) (some 200) none none none).2.2
    (by simp) (by intro x hx; simp at hx; rcases hx with rfl | rfl <;> norm_num)
  rw [h]
  norm_num [List.filterMap_cons]

/-- C10: an out-of-range year makes `update_fcf` raise the invalid-year
`ValueError` before any record lookup: the error is returned for every
database, in particular one with no record for the ticker, and no state is
produced on this path. -/
theorem C10_invalid_year_before_lookup (db : DB) (ticker : String) (year : ℤ)
    (value : Option ℚ) (now : String)
    (h : ¬(year = 2021 ∨ year = 2022 ∨ year = 2023 ∨ year = 2024 ∨ year = 2025)) :
    update_fcf db ticker year value now =
      Except.error s!"Year must be 2021-2025, got {year}" := by
  unfold update_fcf
  rw [if_pos h]

/-- A concrete out-of-range year. -/
def invalidYear : ℤ := 2020

/-- Witness for C10: year 2020 on an empty database is rejected with the
invalid-year error rather than a not-found result. -/
theorem C10_invalid_year_witness :
    update_fcf ([] : DB) "AAPL" invalidYear (some 1) "t" =
      Except.error s!"Year must be 2021-2025, got {invalidYear}" :=
  C10_invalid_year_before_lookup [] "AAPL" invalidYear (some 1) "t" (by decide)

/-- C9: `upsert` is idempotent given identical inputs (the ambient clock
value included): performing it twice leaves the same table as once. -/
theorem C9_upsert_idempotent (db : DB) (data : UpsertData)
    (company_name now : String) :
    upsert (upsert db data company_name now) data company_name now =
      upsert db data company_name now := by
  have hpn : ((mkUpsertRecord data company_name now).ticker == data.ticker) = true := by
    simp [mkUpsertRecord]
  cases hb : (db : List StockRecord).any (fun r => r.ticker == data.ticker) with
  | true =>
    have h1 : upsert db data company_name now =
        (db : List StockRecord).map (fun r =>
          if r.ticker == data.ticker then mkUpsertRecord data company_name now
          else r) := by
      unfold upsert; rw [if_pos hb]
    have hany2 : (((db : List StockRecord).map (fun r =>
        if r.ticker == data.ticker then mkUpsertRecord data company_name now
        else r)).any (fun r => r.ticker == data.ticker)) = true := by
      rw [List.any_eq_true] at hb ⊢
      obtain ⟨r, hr, hpr⟩ := hb
      refine ⟨_, List.mem_map_of_mem _ hr, ?_⟩
      rw [if_pos hpr]
      exact hpn
    rw [h1]
    unfold upsert
    rw [if_pos hany2, List.map_map]
    refine List.map_congr_left ?_
    intro r _
    by_cases hpr : (r.ticker == data.ticker) = true
    · simp only [Function.comp_apply, if_pos hpr, if_pos hpn]
    · simp only [Function.comp_apply, if_neg hpr]
  | false =>
    have h1 : upsert db data company_name now =
        db ++ [mkUpsertRecord data company_name now] := by
      unfold upsert; rw [if_neg (by simp [hb])]
    have hany2 : ((db ++ [mkUpsertRecord data company_name now]).any
        (fun r => r.ticker == data.ticker)) = true := by
      rw [List.any_eq_true]
      exact ⟨_, List.mem_append_right _ (List.mem_singleton_self _), hpn⟩
    rw [h1]
    unfold upsert
    rw [if_pos hany2, List.map_append]
    have hdb : (db : List StockRecord).map (fun r =>
        if r.ticker == data.ticker then mkUpsertRecord data company_name now
        else r) = db := by
      conv_rhs => rw [← List.map_id db]
      refine List.map_congr_left ?_
      intro r hr
      have : ¬((r.ticker == data.ticker) = true) := by
        rw [List.any_eq_false] at hb
        exact hb r hr
      rw [if_neg this]
      rfl
    rw [hdb]
    simp only [List.map_cons, List.map_nil, if_pos hpn]

lemma rhe_close (q : ℚ) :
    |q - rhe q| ≤ 1/2 ∧ (|q - rhe q| = 1/2 → Even (rhe q)) := by
  have h0 : (0 : ℚ) ≤ q - ⌊q⌋ := by
    have := Int.floor_le q; linarith
  have h1 : q - ⌊q⌋ < 1 := by
    have := Int.lt_floor_add_one q; linarith
  unfold rhe
  split_ifs with ha hb hc
  · constructor
    · rw [abs_of_nonneg (by linarith)]; linarith
    · intro habs
      rw [abs_of_nonneg (by linarith)] at habs
      linarith
  · push_cast
    constructor
    · rw [abs_of_nonpos (by linarith)]; linarith
    · intro habs
      rw [abs_of_nonpos (by linarith)] at habs
      linarith
  · have heq : q - ⌊q⌋ = 1/2 := le_antisymm (not_lt.mp hb) (not_lt.mp ha)
    constructor
    · rw [abs_of_nonneg (by linarith)]; linarith
    · intro _
      exact Int.even_iff.mpr hc
  · have heq : q - ⌊q⌋ = 1/2 := le_antisymm (not_lt.mp hb) (not_lt.mp ha)
    push_cast
    constructor
    · rw [abs_of_nonpos (by linarith)]; linarith
    · intro _
      refine Int.even_iff.mpr ?_
      rcases Int.emod_two_eq ⌊q⌋ with h | h
      · exact absurd h hc
      · omega

/-- C3: the yield computation is total and returns null exactly when the
average is null, the enterprise value is null, or the enterprise value is
not positive; otherwise it returns average / enterprise value rounded to
3 decimal places with round-half-to-even tie-breaking: the result is an
integer multiple of 1/1000 within 1/2000 of the true quotient, and a tie
is broken to the even multiple. -/
theorem C3_compute_yield (a ev : Option ℚ) :
    (calculate_fcf_yield a ev = none ↔
      a = none ∨ ev = none ∨ ∃ e, ev = some e ∧ e ≤ 0) ∧
    (∀ x e, a = some x → ev = some e → 0 < e →
      ∃ n : ℤ, calculate_fcf_yield a ev = some ((n : ℚ) / 1000) ∧
        |x / e - (n : ℚ) / 1000| ≤ 1 / 2000 ∧
        (|x / e - (n : ℚ) / 1000| = 1 / 2000 → Even n)) := by
  constructor
  · match a, ev with
    | none, none => simp [calculate_fcf_yield]
    | none, some e => simp [calculate_fcf_yield]
    | some x, none => simp [calculate_fcf_yield]
    | some x, some e =>
      unfold calculate_fcf_yield
      by_cases he : e ≤ 0
      · simp [he]
      · simp only [if_neg he]
        simp [he]
  · intro x e hx he hpos
    subst hx; subst he
    have hne : ¬(e ≤ 0) := not_le.mpr hpos
    refine ⟨rhe (x / e * 1000), ?_, ?_, ?_⟩
    · show (if e ≤ 0 then (none : Option ℚ) else some (round3 (x / e))) =
        some ((rhe (x / e * 1000) : ℚ) / 1000)
      rw [if_neg hne]
      rfl
    · have hk := (rhe_close (x / e * 1000)).1
      have hrw : x / e - (rhe (x / e * 1000) : ℚ) / 1000 =
          (x / e * 1000 - (rhe (x / e * 1000) : ℚ)) / 1000 := by ring
      rw [hrw, abs_div]
      rw [abs_of_pos (by norm_num : (0:ℚ) < 1000)]
      linarith
    · intro habs
      have hrw : x / e - (rhe (x / e * 1000) : ℚ) / 1000 =
          (x / e * 1000 - (rhe (x / e * 1000) : ℚ)) / 1000 := by ring
      rw [hrw, abs_div, abs_of_pos (by norm_num : (0:ℚ) < 1000)] at habs
      exact (rhe_close (x / e * 1000)).2 (by linarith)

/-- Witness for C3 at the spec's example (average 150, EV 10,000): the
yield is a multiple of 1/1000 within 1/2000 of 150/10000. -/
theorem C3_compute_yield_witness :
    ∃ n : ℤ, calculate_fcf_yield (some 150) (some 10000) = some ((n : ℚ) / 1000) ∧
      |(150 : ℚ) / 10000 - (n : ℚ) / 1000| ≤ 1 / 2000 ∧
      (|(150 : ℚ) / 10000 - (n : ℚ) / 1000| = 1 / 2000 → Even n) :=
  (C3_compute_yield (some 150) (some 10000)).2 150 10000 rfl rfl (by norm_num)

lemma find?_map_pres (p : StockRecord → Bool) (g : StockRecord → StockRecord)
    (hp : ∀ r, p (g r) = p r) (l : List StockRecord) :
    (l.map g).find? p = (l.find? p).map g := by
  induction l with
  | nil => rfl
  | cons x xs ih =>
    cases hpx : p x with
    | true =>
      rw [List.map_cons, List.find?_cons_of_pos _ ((hp x).trans hpx),
        List.find?_cons_of_pos _ hpx]
      rfl
    | false =>
      rw [List.map_cons, List.find?_cons_of_neg _ (by simp [hp x, hpx]),
        List.find?_cons_of_neg _ (by simp [hpx]), ih]

lemma mem_map_of_fix {l : List StockRecord} {g : StockRecord → StockRecord}
    {r : StockRecord} (hr : r ∈ l) (hfix : g r = r) : r ∈ l.map g :=
  hfix ▸ List.mem_map_of_mem g hr

lemma find?_pred {α : Type} (p : α → Bool) (l : List α) (a : α)
    (h : l.find? p = some a) : p a = true := List.find?_some h

lemma setFcf_ticker (r : StockRecord) (year : ℤ) (value : Option ℚ) :
    (setFcf r year value).ticker = r.ticker := by
  unfold setFcf; split_ifs <;> rfl

lemma setFcf_enterprise_value (r : StockRecord) (year : ℤ) (value : Option ℚ) :
    (setFcf r year value).enterprise_value = r.enterprise_value := by
  unfold setFcf; split_ifs <;> rfl

lemma setFcf_company_name (r : StockRecord) (year : ℤ) (value : Option ℚ) :
    (setFcf r year value).company_name = r.company_name := by
  unfold setFcf; split_ifs <;> rfl

lemma storedFcf_setFcf (r : StockRecord) (year : ℤ) (value : Option ℚ) :
    storedFcfValues (setFcf r year value) =
      [ if year = 2025 then value else r.fcf_2025,
        if year = 2024 then value else r.fcf_2024,
        if year = 2023 then value else r.fcf_2023,
        if year = 2022 then value else r.fcf_2022,
        if year = 2021 then value else r.fcf_2021 ] := by
  unfold storedFcfValues setFcf
  split_ifs <;> first | rfl | omega

lemma getFcf_setFcf_same (r : StockRecord) (year : ℤ) (value : Option ℚ)
    (hy : year = 2021 ∨ year = 2022 ∨ year = 2023 ∨ year = 2024 ∨ year = 2025) :
    getFcf (setFcf r year value) year = value := by
  rcases hy with rfl | rfl | rfl | rfl | rfl <;> simp [setFcf, getFcf]

set_option maxHeartbeats 1000000 in
lemma getFcf_setFcf_other (r : StockRecord) (year : ℤ) (value : Option ℚ)
    (y : ℤ) (hne : y ≠ year) :
    getFcf (setFcf r year value) y = getFcf r y := by
  unfold setFcf getFcf
  split_ifs <;> first | rfl | omega

lemma getFcf_overwrite_derived (r : StockRecord) (A Y : Option ℚ) (n : String)
    (y : ℤ) :
    getFcf { r with average_fcf := A, fcf_yield := Y, last_updated := n } y =
      getFcf r y := rfl

/-- The row written for the matching ticker by `update_fcf`. -/
def updatedFcfRow (record : StockRecord) (year : ℤ) (value : Option ℚ)
    (now : String) (r : StockRecord) : StockRecord :=
  { setFcf r year value with
      average_fcf := calculate_average_fcf
        [ if year = 2025 then value else record.fcf_2025,
          if year = 2024 then value else record.fcf_2024,
          if year = 2023 then value else record.fcf_2023,
          if year = 2022 then value else record.fcf_2022,
          if year = 2021 then value else record.fcf_2021 ]
      fcf_yield := calculate_fcf_yield
        (calculate_average_fcf
          [ if year = 2025 then value else record.fcf_2025,
            if year = 2024 then value else record.fcf_2024,
            if year = 2023 then value else record.fcf_2023,
            if year = 2022 then value else record.fcf_2022,
            if year = 2021 then value else record.fcf_2021 ])
        record.enterprise_value
      last_updated := now }

lemma update_fcf_found (db : DB) (ticker : String) (year : ℤ)
    (value : Option ℚ) (now : String) (record : StockRecord)
    (hy : year = 2021 ∨ year = 2022 ∨ year = 2023 ∨ year = 2024 ∨ year = 2025)
    (hf : dbGet db ticker = some record) :
    update_fcf db ticker year value now = Except.ok (true,
      (db : List StockRecord).map (fun r =>
        if r.ticker == pyUpper ticker then updatedFcfRow record year value now r
        else r)) := by
  unfold update_fcf
  rw [if_neg (not_not_intro hy), hf]
  rfl

lemma update_fcf_notfound (db : DB) (ticker : String) (year : ℤ)
    (value : Option ℚ) (now : String)
    (hy : year = 2021 ∨ year = 2022 ∨ year = 2023 ∨ year = 2024 ∨ year = 2025)
    (hn : dbGet db ticker = none) :
    update_fcf db ticker year value now = Except.ok (false, db) := by
  unfold update_fcf
  rw [if_neg (not_not_intro hy), hn]

lemma getFcf_overwrite_ev (r : StockRecord) (v Y : Option ℚ) (n : String)
    (y : ℤ) :
    getFcf { r with enterprise_value := v, fcf_yield := Y, last_updated := n } y =
      getFcf r y := rfl

lemma updatedFcfRow_ticker (record : StockRecord) (year : ℤ) (value : Option ℚ)
    (now : String) (r : StockRecord) :
    (updatedFcfRow record year value now r).ticker = r.ticker := by
  show (setFcf r year value).ticker = r.ticker
  exact setFcf_ticker r year value

/-- C4: `update_fcf` rejects exactly the out-of-range years with the
invalid-year error; for an in-range year it reports `false` exactly when
the ticker has no stored record; otherwise it replaces only that year's
FCF, leaves the other four years and the enterprise value unchanged,
recomputes both derived fields from the full merged year set and the
existing enterprise value, and reports success. -/
theorem C4_update_fcf (db : DB) (ticker : String) (year : ℤ)
    (value : Option ℚ) (now : String) :
    (¬(year = 2021 ∨ year = 2022 ∨ year = 2023 ∨ year = 2024 ∨ year = 2025) →
      update_fcf db ticker year value now =
        Except.error s!"Year must be 2021-2025, got {year}") ∧
    ((year = 2021 ∨ year = 2022 ∨ year = 2023 ∨ year = 2024 ∨ year = 2025) →
      dbGet db ticker = none →
      update_fcf db ticker year value now = Except.ok (false, db)) ∧
    (∀ record,
      (year = 2021 ∨ year = 2022 ∨ year = 2023 ∨ year = 2024 ∨ year = 2025) →
      dbGet db ticker = some record →
      ∃ db2, update_fcf db ticker year value now = Except.ok (true, db2) ∧
        ∃ updated, dbGet db2 ticker = some updated ∧
          getFcf updated year = value ∧
          (∀ y, y ≠ year → getFcf updated y = getFcf record y) ∧
          updated.enterprise_value = record.enterprise_value ∧
          updated.company_name = record.company_name ∧
          updated.ticker = record.ticker ∧
          updated.average_fcf = calculate_average_fcf (storedFcfValues updated) ∧
          updated.fcf_yield =
            calculate_fcf_yield updated.average_fcf record.enterprise_value ∧
          updated.last_updated = now ∧
          (∀ r ∈ db, (r.ticker == pyUpper ticker) = false → r ∈ db2)) := by
  refine ⟨fun h => ?_, fun hy hn => update_fcf_notfound db ticker year value now hy hn,
    fun record hy hf => ?_⟩
  · unfold update_fcf
    rw [if_pos h]
  · refine ⟨_, update_fcf_found db ticker year value now record hy hf, ?_⟩
    have hp : ∀ r : StockRecord,
        (((if (r.ticker == pyUpper ticker) = true then
            updatedFcfRow record year value now r else r)).ticker == pyUpper ticker) =
          (r.ticker == pyUpper ticker) := by
      intro r
      by_cases hr : (r.ticker == pyUpper ticker) = true
      · rw [if_pos hr, updatedFcfRow_ticker]
      · rw [if_neg hr]
    have hfind : dbGet ((db : List StockRecord).map (fun r =>
        if r.ticker == pyUpper ticker then updatedFcfRow record year value now r
        else r)) ticker = some (updatedFcfRow record year value now record) := by
      unfold dbGet
      rw [find?_map_pres _ _ hp db]
      unfold dbGet at hf
      rw [hf]
      have hprec : (record.ticker == pyUpper ticker) = true :=
        find?_pred _ db record hf
      rw [Option.map_some', if_pos hprec]
    refine ⟨updatedFcfRow record year value now record, hfind, ?_, ?_, ?_, ?_, ?_, ?_, rfl, rfl, ?_⟩
    · show getFcf (setFcf record year value) year = value
      exact getFcf_setFcf_same record year value hy
    · intro y hne
      show getFcf (setFcf record year value) y = getFcf record y
      exact getFcf_setFcf_other record year value y hne
    · show (setFcf record year value).enterprise_value = record.enterprise_value
      exact setFcf_enterprise_value record year value
    · show (setFcf record year value).company_name = record.company_name
      exact setFcf_company_name record year value
    · exact updatedFcfRow_ticker record year value now record
    · show calculate_average_fcf _ =
        calculate_average_fcf (storedFcfValues (updatedFcfRow record year value now record))
      have hstored : storedFcfValues (updatedFcfRow record year value now record) =
          [ if year = 2025 then value else record.fcf_2025,
            if year = 2024 then value else record.fcf_2024,
            if year = 2023 then value else record.fcf_2023,
            if year = 2022 then value else record.fcf_2022,
            if year = 2021 then value else record.fcf_2021 ] := by
        show storedFcfValues (setFcf record year value) = _
        exact storedFcf_setFcf record year value
      rw [hstored]
    · intro r hr hpr
      exact mem_map_of_fix hr (if_neg (by simp [hpr]))

/-- A concrete stored row used by several witnesses. -/
def exRow : StockRecord :=
  { ticker := "AAPL", company_name := "Apple", enterprise_value := some 1000,
    fcf_2025 := none, fcf_2024 := none, fcf_2023 := none, fcf_2022 := none,
    fcf_2021 := none, average_fcf := none, fcf_yield := none,
    last_updated := "t0" }

/-- Witness for C4: updating year 2023 of a stored one-row table succeeds
and yields a row with the new year value, the other fields framed, and the
derived fields recomputed. -/
theorem C4_update_fcf_witness :
    ∃ db2, update_fcf [exRow] "AAPL" 2023 (some 300) "t1" = Except.ok (true, db2) ∧
      ∃ updated, dbGet db2 "AAPL" = some updated ∧
        getFcf updated 2023 = some 300 ∧
        (∀ y, y ≠ 2023 → getFcf updated y = getFcf exRow y) ∧
        updated.enterprise_value = exRow.enterprise_value ∧
        updated.company_name = exRow.company_name ∧
        updated.ticker = exRow.ticker ∧
        updated.average_fcf = calculate_average_fcf (storedFcfValues updated) ∧
        updated.fcf_yield =
          calculate_fcf_yield updated.average_fcf exRow.enterprise_value ∧
        updated.last_updated = "t1" ∧
        (∀ r ∈ ([exRow] : DB), (r.ticker == pyUpper "AAPL") = false → r ∈ db2) :=
  (C4_update_fcf [exRow] "AAPL" 2023 (some 300) "t1").2.2 exRow
    (by norm_num) (by rfl)

/-- C5: `update_enterprise_value` never changes the stored `average_fcf`,
any of the five FCF year values, or the company name: it replaces only the
enterprise value, recomputes `fcf_yield` from the existing `average_fcf`
and the new enterprise value, and stamps the timestamp; for a ticker
without a record it reports not-found and leaves the table unchanged. -/
theorem C5_update_ev_frame (db : DB) (ticker : String) (value : Option ℚ)
    (now : String) :
    (dbGet db ticker = none →
      update_enterprise_value db ticker value now = (false, db)) ∧
    (∀ record, dbGet db ticker = some record →
      (update_enterprise_value db ticker value now).1 = true ∧
      (∃ updated,
        dbGet (update_enterprise_value db ticker value now).2 ticker = some updated ∧
        updated.average_fcf = record.average_fcf ∧
        (∀ y, getFcf updated y = getFcf record y) ∧
        updated.company_name = record.company_name ∧
        updated.ticker = record.ticker ∧
        updated.enterprise_value = value ∧
        updated.fcf_yield = calculate_fcf_yield record.average_fcf value ∧
        updated.last_updated = now) ∧
      (∀ r ∈ db, (r.ticker == pyUpper ticker) = false →
        r ∈ (update_enterprise_value db ticker value now).2)) := by
  constructor
  · intro hn
    unfold update_enterprise_value
    rw [hn]
  · intro record hf
    have hres : update_enterprise_value db ticker value now = (true,
        (db : List StockRecord).map (fun r =>
          if r.ticker == pyUpper ticker then
            { r with
                enterprise_value := value
                fcf_yield := calculate_fcf_yield record.average_fcf value
                last_updated := now }
          else r)) := by
      unfold update_enterprise_value
      rw [hf]
    rw [hres]
    have hp : ∀ r : StockRecord,
        (((if (r.ticker == pyUpper ticker) = true then
            { r with
                enterprise_value := value
                fcf_yield := calculate_fcf_yield record.average_fcf value
                last_updated := now }
          else r)).ticker == pyUpper ticker) = (r.ticker == pyUpper ticker) := by
      intro r
      by_cases hr : (r.ticker == pyUpper ticker) = true
      · rw [if_pos hr]
      · rw [if_neg hr]
    refine ⟨rfl, ?_, ?_⟩
    · have hprec : (record.ticker == pyUpper ticker) = true :=
        find?_pred _ db record hf
      refine ⟨{ record with
          enterprise_value := value
          fcf_yield := calculate_fcf_yield record.average_fcf value
          last_updated := now }, ?_, rfl, fun y => rfl, rfl, rfl, rfl, rfl, rfl⟩
      unfold dbGet
      rw [find?_map_pres _ _ hp db]
      unfold dbGet at hf
      rw [hf]
      rw [Option.map_some', if_pos hprec]
    · intro r hr hpr
      exact mem_map_of_fix hr (if_neg (by simp [hpr]))

/-- Witness for C5: setting a fresh enterprise value on a stored one-row
table keeps the average and all FCF years, and recomputes only the yield. -/
theorem C5_update_ev_witness :
    (update_enterprise_value [exRow] "AAPL" (some 200) "t1").1 = true ∧
    (∃ updated,
      dbGet (update_enterprise_value [exRow] "AAPL" (some 200) "t1").2 "AAPL" =
        some updated ∧
      updated.average_fcf = exRow.average_fcf ∧
      (∀ y, getFcf updated y = getFcf exRow y) ∧
      updated.company_name = exRow.company_name ∧
      updated.ticker = exRow.ticker ∧
      updated.enterprise_value = some 200 ∧
      updated.fcf_yield = calculate_fcf_yield exRow.average_fcf (some 200) ∧
      updated.last_updated = "t1") ∧
    (∀ r ∈ ([exRow] : DB), (r.ticker == pyUpper "AAPL") = false →
      r ∈ (update_enterprise_value [exRow] "AAPL" (some 200) "t1").2) :=
  (C5_update_ev_frame [exRow] "AAPL" (some 200) "t1").2 exRow (by rfl)

lemma find?_mem {α : Type} (p : α → Bool) (l : List α) (a : α)
    (h : l.find? p = some a) : a ∈ l := List.mem_of_find?_eq_some h

lemma find?_cons_pos {α : Type} (p : α → Bool) (a : α) (l : List α)
    (h : p a = true) : (a :: l).find? p = some a := by
  simp [List.find?_cons, h]

lemma find?_cons_neg {α : Type} (p : α → Bool) (a : α) (l : List α)
    (h : p a = false) : (a :: l).find? p = l.find? p := by
  simp [List.find?_cons, h]

lemma matching_eq_found (db : List StockRecord) (key : String)
    (hwf : DBWF db) (rec : StockRecord)
    (hfind : db.find? (fun r => r.ticker == key) = some rec)
    (r : StockRecord) (hr : r ∈ db) (hpr : (r.ticker == key) = true) :
    r = rec := by
  induction db with
  | nil => cases hr
  | cons x xs ih =>
    unfold DBWF at hwf
    rw [List.pairwise_cons] at hwf
    rcases List.mem_cons.mp hr with rfl | hr'
    · rw [find?_cons_pos _ _ xs hpr] at hfind
      exact Option.some.inj hfind
    · cases hpx : (x.ticker == key) with
      | true =>
        have hx : x.ticker = key := by simpa using hpx
        have hrk : r.ticker = key := by simpa using hpr
        exact absurd (hx.trans hrk.symm) (hwf.1 r hr')
      | false =>
        rw [find?_cons_neg _ x xs hpx] at hfind
        exact ih hwf.2 hfind hr'

lemma mem_upsert (db : DB) (data : UpsertData) (company_name now : String) :
    ∀ r ∈ upsert db data company_name now,
      r ∈ db ∨ r = mkUpsertRecord data company_name now := by
  intro r hr
  unfold upsert at hr
  by_cases hb : ((db : List StockRecord).any (fun r => r.ticker == data.ticker)) = true
  · rw [if_pos hb] at hr
    obtain ⟨x, hx, hgx⟩ := List.mem_map.mp hr
    by_cases hpx : (x.ticker == data.ticker) = true
    · rw [if_pos hpx] at hgx
      exact Or.inr hgx.symm
    · rw [if_neg hpx] at hgx
      exact Or.inl (hgx ▸ hx)
  · rw [if_neg hb] at hr
    rcases List.mem_append.mp hr with h | h
    · exact Or.inl h
    · exact Or.inr (List.mem_singleton.mp h)

lemma updatedFcfRow_self_derivedOK (record : StockRecord) (year : ℤ)
    (value : Option ℚ) (now : String) :
    derivedOK (updatedFcfRow record year value now record) := by
  constructor
  · show calculate_average_fcf _ =
      calculate_average_fcf (storedFcfValues (updatedFcfRow record year value now record))
    have hstored : storedFcfValues (updatedFcfRow record year value now record) =
        [ if year = 2025 then value else record.fcf_2025,
          if year = 2024 then value else record.fcf_2024,
          if year = 2023 then value else record.fcf_2023,
          if year = 2022 then value else record.fcf_2022,
          if year = 2021 then value else record.fcf_2021 ] := by
      show storedFcfValues (setFcf record year value) = _
      exact storedFcf_setFcf record year value
    rw [hstored]
  · show calculate_fcf_yield _ record.enterprise_value =
      calculate_fcf_yield _ (setFcf record year value).enterprise_value
    rw [setFcf_enterprise_value]
    rfl

/-- C1: every store mutation leaves both derived fields equal to their
recomputation from the stored inputs: the row written by `upsert` satisfies
the invariant outright; and each of `upsert`, `update_fcf` and
`update_enterprise_value` maps a table of invariant-satisfying rows (with
the `ticker` primary key) to a table of invariant-satisfying rows — for
`update_enterprise_value` the stored `average_fcf` is reused, so the
invariant before the call is assumed, exactly as the claim states. -/
theorem C1_derived_invariant :
    (∀ (data : UpsertData) (company_name now : String),
      derivedOK (mkUpsertRecord data company_name now)) ∧
    (∀ (db : DB) (data : UpsertData) (company_name now : String),
      (∀ r ∈ db, derivedOK r) →
      ∀ r ∈ upsert db data company_name now, derivedOK r) ∧
    (∀ (db : DB) (ticker : String) (year : ℤ) (value : Option ℚ) (now : String)
      (res : Bool × DB), DBWF db →
      update_fcf db ticker year value now = Except.ok res →
      (∀ r ∈ db, derivedOK r) → ∀ r ∈ res.2, derivedOK r) ∧
    (∀ (db : DB) (ticker : String) (value : Option ℚ) (now : String), DBWF db →
      (∀ r ∈ db, derivedOK r) →
      ∀ r ∈ (update_enterprise_value db ticker value now).2, derivedOK r) := by
  refine ⟨fun data company_name now => mkUpsertRecord_derivedOK data company_name now,
    ?_, ?_, ?_⟩
  · intro db data company_name now hall r hr
    rcases mem_upsert db data company_name now r hr with h | rfl
    · exact hall r h
    · exact mkUpsertRecord_derivedOK data company_name now
  · intro db ticker year value now res hwf hok hall r hr
    by_cases hy : (year = 2021 ∨ year = 2022 ∨ year = 2023 ∨ year = 2024 ∨ year = 2025)
    · cases hg : dbGet db ticker with
      | none =>
        have h2 := (update_fcf_notfound db ticker year value now hy hg).symm.trans hok
        obtain rfl := Except.ok.inj h2
        exact hall r hr
      | some record =>
        have h2 := (update_fcf_found db ticker year value now record hy hg).symm.trans hok
        obtain rfl := Except.ok.inj h2
        obtain ⟨x, hx, hgx⟩ := List.mem_map.mp hr
        by_cases hpx : (x.ticker == pyUpper ticker) = true
        · rw [if_pos hpx] at hgx
          have hxr : x = record := by
            have hg' : db.find? (fun r => r.ticker == pyUpper ticker) = some record := hg
            exact matching_eq_found db (pyUpper ticker) hwf record hg' x hx hpx
          subst hxr
          exact hgx ▸ updatedFcfRow_self_derivedOK x year value now
        · rw [if_neg hpx] at hgx
          exact hall r (hgx ▸ hx)
    · have hok2 := hok
      unfold update_fcf at hok2
      rw [if_pos hy] at hok2
      cases hok2
  · intro db ticker value now hwf hall r hr
    cases hg : dbGet db ticker with
    | none =>
      have h2 : update_enterprise_value db ticker value now = (false, db) := by
        unfold update_enterprise_value
        rw [hg]
      rw [h2] at hr
      exact hall r hr
    | some record =>
      have h2 : update_enterprise_value db ticker value now = (true,
          (db : List StockRecord).map (fun r =>
            if r.ticker == pyUpper ticker then
              { r with
                  enterprise_value := value
                  fcf_yield := calculate_fcf_yield record.average_fcf value
                  last_updated := now }
            else r)) := by
        unfold update_enterprise_value
        rw [hg]
      rw [h2] at hr
      obtain ⟨x, hx, hgx⟩ := List.mem_map.mp hr
      by_cases hpx : (x.ticker == pyUpper ticker) = true
      · rw [if_pos hpx] at hgx
        have hg' : db.find? (fun r => r.ticker == pyUpper ticker) = some record := hg
        have hxr : x = record := matching_eq_found db (pyUpper ticker) hwf record hg' x hx hpx
        subst hxr
        have hxOK := hall x hx
        refine hgx ▸ ⟨?_, rfl⟩
        show x.average_fcf = calculate_average_fcf (storedFcfValues x)
        exact hxOK.1
      · rw [if_neg hpx] at hgx
        exact hall r (hgx ▸ hx)

/-- Witness for C1: refreshing the enterprise value of a stored
invariant-satisfying row yields a row that still satisfies the derived
invariant. -/
theorem C1_derived_invariant_witness :
    derivedOK
      { ticker := "AAPL", company_name := "Apple", enterprise_value := some 200,
        fcf_2025 := none, fcf_2024 := none, fcf_2023 := none, fcf_2022 := none,
        fcf_2021 := none, average_fcf := none, fcf_yield := none,
        last_updated := "t1" } :=
  C1_derived_invariant.2.2.2 [exRow] "AAPL" (some 200) "t1"
    (by simp [DBWF])
    (by intro r hr
        rw [List.mem_singleton] at hr
        subst hr
        exact ⟨rfl, rfl⟩)
    _
    (by exact List.mem_singleton.mpr rfl)

/-- C6: for the most recent target year (2025), when the annual statement
yields no FCF figure, the provider substitutes the TTM value — the sum of
the four most recent quarterly figures — but only when exactly four valid
quarterly values are available among the four most recent quarters;
otherwise 2025 stays unset.  The earlier target years (2021–2024) come
from the annual figures only: their values do not depend on the quarterly
data at all. -/
theorem C6_ttm_fallback (annual : Option (List (ℤ × Option ℚ)))
    (quarterly : Option (List (Option ℚ))) :
    ((annualOnlyFcf annual).fcf_2025 = none →
      (get_free_cash_flow annual quarterly).fcf_2025 = calculate_ttm_fcf quarterly) ∧
    ((annualOnlyFcf annual).fcf_2025 ≠ none →
      get_free_cash_flow annual quarterly = annualOnlyFcf annual) ∧
    ((get_free_cash_flow annual quarterly).fcf_2024 = (annualOnlyFcf annual).fcf_2024 ∧
     (get_free_cash_flow annual quarterly).fcf_2023 = (annualOnlyFcf annual).fcf_2023 ∧
     (get_free_cash_flow annual quarterly).fcf_2022 = (annualOnlyFcf annual).fcf_2022 ∧
     (get_free_cash_flow annual quarterly).fcf_2021 = (annualOnlyFcf annual).fcf_2021) ∧
    (∀ cols, quarterly = some cols →
      ((((cols.take 4).filterMap id).length = 4 →
        calculate_ttm_fcf quarterly = some ((cols.take 4).filterMap id).sum) ∧
      (((cols.take 4).filterMap id).length ≠ 4 →
        calculate_ttm_fcf quarterly = none))) ∧
    (quarterly = none → calculate_ttm_fcf quarterly = none) := by
  refine ⟨?_, ?_, ?_, ?_, ?_⟩
  · intro h
    unfold get_free_cash_flow
    rw [if_pos h]
    cases hc : calculate_ttm_fcf quarterly with
    | some t => rfl
    | none => exact h
  · intro h
    unfold get_free_cash_flow
    rw [if_neg h]
  · unfold get_free_cash_flow
    split_ifs with h
    · cases hc : calculate_ttm_fcf quarterly <;> exact ⟨rfl, rfl, rfl, rfl⟩
    · exact ⟨rfl, rfl, rfl, rfl⟩
  · intro cols hcols
    subst hcols
    constructor
    · intro hlen
      show (if ((cols.take 4).filterMap id).length = 4
          then some ((cols.take 4).filterMap id).sum else none) =
        some ((cols.take 4).filterMap id).sum
      rw [if_pos hlen]
    · intro hlen
      show (if ((cols.take 4).filterMap id).length = 4
          then some ((cols.take 4).filterMap id).sum else none) = none
      rw [if_neg hlen]
  · intro h
    subst h
    rfl

/-- Witness for C6: with no annual 2025 figure and exactly four valid
quarters, the 2025 slot is filled with the TTM sum. -/
theorem C6_ttm_fallback_witness :
    (get_free_cash_flow (some [((2025 : ℤ), (none : Option ℚ)), ((2024 : ℤ), some 50)])
        (some [some 1, some 2, some 3, some 4])).fcf_2025 =
      calculate_ttm_fcf (some [some 1, some 2, some 3, some 4]) :=
  (C6_ttm_fallback (some [((2025 : ℤ), (none : Option ℚ)), ((2024 : ℤ), some 50)])
    (some [some 1, some 2, some 3, some 4])).1 rfl

lemma assocPut_entry_mem (m : List (String × Company)) (k : String) (c : Company) :
    ∀ p ∈ assocPut m k c, p = (k, c) ∨ p ∈ m := by
  intro p hp
  unfold assocPut at hp
  by_cases hb : (m.any (fun q => q.1 == k)) = true
  · rw [if_pos hb] at hp
    obtain ⟨q, hq, hgq⟩ := List.mem_map.mp hp
    by_cases hqk : (q.1 == k) = true
    · rw [if_pos hqk] at hgq
      exact Or.inl hgq.symm
    · rw [if_neg hqk] at hgq
      exact Or.inr (hgq ▸ hq)
  · rw [if_neg hb] at hp
    rcases List.mem_append.mp hp with h | h
    · exact Or.inr h
    · exact Or.inl (List.mem_singleton.mp h)

lemma assocPut_keeps (m : List (String × Company)) (k : String) (c : Company)
    (k' : String) (h : ∃ q ∈ m, q.1 = k') :
    ∃ q ∈ assocPut m k c, q.1 = k' := by
  obtain ⟨q, hq, hqk⟩ := h
  unfold assocPut
  by_cases hb : (m.any (fun q => q.1 == k)) = true
  · rw [if_pos hb]
    by_cases hqkk : (q.1 == k) = true
    · refine ⟨(k, c), List.mem_map.mpr ⟨q, hq, by rw [if_pos hqkk]⟩, ?_⟩
      have : q.1 = k := by simpa using hqkk
      rw [← this, hqk]
    · exact ⟨q, List.mem_map.mpr ⟨q, hq, by rw [if_neg hqkk]⟩, hqk⟩
  · rw [if_neg hb]
    exact ⟨q, List.mem_append_left _ hq, hqk⟩

lemma assocPut_adds (m : List (String × Company)) (k : String) (c : Company) :
    ∃ q ∈ assocPut m k c, q.1 = k := by
  unfold assocPut
  by_cases hb : (m.any (fun q => q.1 == k)) = true
  · rw [if_pos hb]
    obtain ⟨q, hq, hqk⟩ := List.any_eq_true.mp hb
    exact ⟨(k, c), List.mem_map.mpr ⟨q, hq, by rw [if_pos hqk]⟩, rfl⟩
  · rw [if_neg hb]
    exact ⟨(k, c), List.mem_append_right _ (List.mem_singleton_self _), rfl⟩

lemma foldl_tickerMap_keeps (cs : List Company) :
    ∀ (m : List (String × Company)) (k' : String), (∃ q ∈ m, q.1 = k') →
      ∃ q ∈ cs.foldl (fun m c => assocPut m (pyUpper c.ticker) c) m, q.1 = k' := by
  induction cs with
  | nil => intro m k' h; simpa using h
  | cons c rest ih =>
    intro m k' h
    rw [List.foldl_cons]
    exact ih _ k' (assocPut_keeps m (pyUpper c.ticker) c k' h)

lemma foldl_tickerMap_has_key (cs : List Company) :
    ∀ (m : List (String × Company)) (c : Company), c ∈ cs →
      ∃ q ∈ cs.foldl (fun m c => assocPut m (pyUpper c.ticker) c) m,
        q.1 = pyUpper c.ticker := by
  induction cs with
  | nil => intro m c hc; cases hc
  | cons c0 rest ih =>
    intro m c hc
    rw [List.foldl_cons]
    rcases List.mem_cons.mp hc with rfl | hc'
    · exact foldl_tickerMap_keeps rest _ _ (assocPut_adds m (pyUpper c.ticker) c)
    · exact ih _ c hc'

lemma foldl_tickerMap_entries (Q : String × Company → Prop) (cs : List Company) :
    ∀ (m : List (String × Company)),
      (∀ p ∈ m, Q p) → (∀ c ∈ cs, Q (pyUpper c.ticker, c)) →
      ∀ p ∈ cs.foldl (fun m c => assocPut m (pyUpper c.ticker) c) m, Q p := by
  induction cs with
  | nil =>
    intro m hm _ p hp
    exact hm p (by simpa using hp)
  | cons c rest ih =>
    intro m hm hcs p hp
    rw [List.foldl_cons] at hp
    refine ih _ ?_ (fun c' hc' => hcs c' (List.mem_cons_of_mem _ hc')) p hp
    intro q hq
    rcases assocPut_entry_mem m (pyUpper c.ticker) c q hq with rfl | hqm
    · exact hcs c (List.mem_cons_self c rest)
    · exact hm q hqm

lemma buildTickerMap_entry (companies : List Company) (p : String × Company)
    (hp : p ∈ buildTickerMap companies) :
    p.2 ∈ companies ∧ pyUpper p.2.ticker = p.1 := by
  refine foldl_tickerMap_entries
    (fun p => p.2 ∈ companies ∧ pyUpper p.2.ticker = p.1) companies []
    (by intro q hq; cases hq) (fun c hc => ⟨hc, rfl⟩) p hp

lemma assocGet_buildTickerMap_some (companies : List Company) (key : String)
    (c : Company) (h : assocGet (buildTickerMap companies) key = some c) :
    c ∈ companies ∧ pyUpper c.ticker = key := by
  unfold assocGet at h
  cases hf : (buildTickerMap companies).find? (fun p => p.1 == key) with
  | none => rw [hf] at h; cases h
  | some q =>
    rw [hf] at h
    obtain rfl : q.2 = c := Option.some.inj h
    have hq := buildTickerMap_entry companies q (find?_mem _ _ q hf)
    have hk : q.1 = key := by simpa using find?_pred _ _ q hf
    exact ⟨hq.1, hq.2.trans hk⟩

lemma assocGet_buildTickerMap_none (companies : List Company) (key : String)
    (h : assocGet (buildTickerMap companies) key = none) :
    ∀ c ∈ companies, pyUpper c.ticker ≠ key := by
  intro c hc hk
  obtain ⟨q, hq, hqk⟩ := foldl_tickerMap_has_key companies [] c hc
  unfold assocGet at h
  cases hf : (buildTickerMap companies).find? (fun p => p.1 == key) with
  | some q' => rw [hf] at h; cases h
  | none =>
    rw [List.find?_eq_none] at hf
    exact hf q hq (by simp [hqk, hk])

/-- C7: `resolve` is total and returns (1) the directory ticker when the
trimmed uppercased input equals a known ticker case-insensitively, else
(2) the ticker of the first directory entry, in load order, whose
lowercased title contains the lowercased input as a substring, else
(3) the trimmed uppercased input unchanged. -/
theorem C7_resolve (companies : List Company) (input : String) :
    ((∃ c ∈ companies, pyUpper c.ticker = pyUpper (pyStrip input)) →
      ∃ c ∈ companies, pyUpper c.ticker = pyUpper (pyStrip input) ∧
        resolve companies input = c.ticker) ∧
    ((∀ c ∈ companies, pyUpper c.ticker ≠ pyUpper (pyStrip input)) →
      ∀ c, companies.find? (fun c =>
          strContains (pyLower c.title) (pyLower (pyStrip input))) = some c →
        resolve companies input = c.ticker) ∧
    ((∀ c ∈ companies, pyUpper c.ticker ≠ pyUpper (pyStrip input)) →
      companies.find? (fun c =>
        strContains (pyLower c.title) (pyLower (pyStrip input))) = none →
      resolve companies input = pyUpper (pyStrip input)) := by
  refine ⟨?_, ?_, ?_⟩
  · intro hex
    cases hg : assocGet (buildTickerMap companies) (pyUpper (pyStrip input)) with
    | some c =>
      obtain ⟨hc, hck⟩ := assocGet_buildTickerMap_some companies _ c hg
      refine ⟨c, hc, hck, ?_⟩
      unfold resolve
      rw [hg]
    | none =>
      obtain ⟨c, hc, hck⟩ := hex
      exact absurd hck (assocGet_buildTickerMap_none companies _ hg c hc)
  · intro hall c hfind
    cases hg : assocGet (buildTickerMap companies) (pyUpper (pyStrip input)) with
    | some c' =>
      obtain ⟨hc', hck'⟩ := assocGet_buildTickerMap_some companies _ c' hg
      exact absurd hck' (hall c' hc')
    | none =>
      unfold resolve
      rw [hg, hfind]
  · intro hall hfind
    cases hg : assocGet (buildTickerMap companies) (pyUpper (pyStrip input)) with
    | some c' =>
      obtain ⟨hc', hck'⟩ := assocGet_buildTickerMap_some companies _ c' hg
      exact absurd hck' (hall c' hc')
    | none =>
      unfold resolve
      rw [hg, hfind]

/-- Witness for C7: "Apple" has no exact ticker match in a directory
holding Apple Inc., so the partial title match returns "AAPL". -/
theorem C7_resolve_witness :
    resolve [{ ticker := "AAPL", title := "Apple Inc.", cik_str := none }]
      "Apple" = "AAPL" :=
  (C7_resolve [{ ticker := "AAPL", title := "Apple Inc.", cik_str := none }]
    "Apple").2.1 (by decide)
    { ticker := "AAPL", title := "Apple Inc.", cik_str := none } (by decide)

lemma foldlM_ok (f : DB → (ℤ × Option ℚ) → Except String DB) :
    ∀ (l : List (ℤ × Option ℚ)) (d : DB),
      (∀ (d' : DB) (a : ℤ × Option ℚ), a ∈ l → ∃ d'', f d' a = Except.ok d'') →
      ∃ dout, l.foldlM f d = Except.ok dout := by
  intro l
  induction l with
  | nil => intro d _; exact ⟨d, rfl⟩
  | cons a rest ih =>
    intro d h
    obtain ⟨d1, hd1⟩ := h d a (List.mem_cons_self a rest)
    have hstep : (a :: rest).foldlM f d = rest.foldlM f d1 := by
      rw [List.foldlM_cons, hd1]
      rfl
    rw [hstep]
    exact ih d1 (fun d' a' ha' => h d' a' (List.mem_cons_of_mem _ ha'))

lemma update_fcf_ok (db : DB) (ticker : String) (year : ℤ) (v : Option ℚ)
    (now : String)
    (hy : year = 2021 ∨ year = 2022 ∨ year = 2023 ∨ year = 2024 ∨ year = 2025) :
    ∃ out, update_fcf db ticker year v now = Except.ok out := by
  cases hg : dbGet db ticker with
  | none => exact ⟨(false, db), update_fcf_notfound db ticker year v now hy hg⟩
  | some record => exact ⟨_, update_fcf_found db ticker year v now record hy hg⟩

lemma applyFcfYears_ok (db : DB) (ticker : String) (fcf : FreeCashFlowData)
    (now : String) :
    ∃ db', applyFcfYears db ticker fcf now = Except.ok db' := by
  unfold applyFcfYears
  refine foldlM_ok _ _ db ?_
  intro d a ha
  have hy : a.1 = 2021 ∨ a.1 = 2022 ∨ a.1 = 2023 ∨ a.1 = 2024 ∨ a.1 = 2025 := by
    simp only [List.mem_cons, List.not_mem_nil, or_false] at ha
    rcases ha with rfl | rfl | rfl | rfl | rfl <;> simp
  cases h2 : a.2 with
  | none => exact ⟨d, by simp only [h2]; rfl⟩
  | some v =>
    obtain ⟨out, hout⟩ := update_fcf_ok d ticker a.1 (some v) now hy
    exact ⟨out.2, by simp only [h2, hout]; rfl⟩

lemma refreshEVLoop_spec (provider : String → Except String (Option ℚ))
    (now : String) :
    ∀ (rs : List StockRecord) (db : DB),
      (refreshEVLoop provider now db rs).2.1 =
        rs.countP (fun r => isOkSome (provider r.ticker)) ∧
      (refreshEVLoop provider now db rs).2.2 =
        rs.countP (fun r => isProviderError (provider r.ticker)) := by
  intro rs
  induction rs with
  | nil => intro db; simp [refreshEVLoop]
  | cons r rest ih =>
    intro db
    cases hp : provider r.ticker with
    | error e =>
      have hstep : refreshEVLoop provider now db (r :: rest) =
          ((refreshEVLoop provider now db rest).1,
           (refreshEVLoop provider now db rest).2.1,
           (refreshEVLoop provider now db rest).2.2 + 1) := by
        simp [refreshEVLoop, hp]
      rw [hstep, List.countP_cons, List.countP_cons]
      simp [isOkSome, isProviderError, hp, (ih db).1, (ih db).2]
    | ok v =>
      cases v with
      | none =>
        have hstep : refreshEVLoop provider now db (r :: rest) =
            refreshEVLoop provider now db rest := by
          simp [refreshEVLoop, hp]
        rw [hstep, List.countP_cons, List.countP_cons]
        simp [isOkSome, isProviderError, hp, (ih db).1, (ih db).2]
      | some x =>
        have hstep : refreshEVLoop provider now db (r :: rest) =
            ((refreshEVLoop provider now
                (update_enterprise_value db r.ticker (some x) now).2 rest).1,
             (refreshEVLoop provider now
                (update_enterprise_value db r.ticker (some x) now).2 rest).2.1 + 1,
             (refreshEVLoop provider now
                (update_enterprise_value db r.ticker (some x) now).2 rest).2.2) := by
          simp [refreshEVLoop, hp]
        rw [hstep, List.countP_cons, List.countP_cons]
        simp [isOkSome, isProviderError, hp,
          (ih (update_enterprise_value db r.ticker (some x) now).2).1,
          (ih (update_enterprise_value db r.ticker (some x) now).2).2]

lemma refreshFcfLoop_spec (provider : String → Except String FreeCashFlowData)
    (now : String) :
    ∀ (rs : List StockRecord) (db : DB),
      (refreshFcfLoop provider now db rs).2.1 =
        rs.countP (fun r => !(isProviderError (provider r.ticker))) ∧
      (refreshFcfLoop provider now db rs).2.2 =
        rs.countP (fun r => isProviderError (provider r.ticker)) := by
  intro rs
  induction rs with
  | nil => intro db; simp [refreshFcfLoop]
  | cons r rest ih =>
    intro db
    cases hp : provider r.ticker with
    | error e =>
      have hstep : refreshFcfLoop provider now db (r :: rest) =
          ((refreshFcfLoop provider now db rest).1,
           (refreshFcfLoop provider now db rest).2.1,
           (refreshFcfLoop provider now db rest).2.2 + 1) := by
        simp [refreshFcfLoop, hp]
      rw [hstep, List.countP_cons, List.countP_cons]
      simp [isProviderError, hp, (ih db).1, (ih db).2]
    | ok fcf =>
      obtain ⟨db1, hdb1⟩ := applyFcfYears_ok db r.ticker fcf now
      have hstep : refreshFcfLoop provider now db (r :: rest) =
          ((refreshFcfLoop provider now db1 rest).1,
           (refreshFcfLoop provider now db1 rest).2.1 + 1,
           (refreshFcfLoop provider now db1 rest).2.2) := by
        simp [refreshFcfLoop, hp, hdb1]
      rw [hstep, List.countP_cons, List.countP_cons]
      simp [isProviderError, hp, (ih db1).1, (ih db1).2]

lemma guard_pred_pres (t key : String) (g : StockRecord → StockRecord)
    (hticker : ∀ r, (g r).ticker = r.ticker) :
    ∀ r : StockRecord,
      (((if (r.ticker == pyUpper t) = true then g r else r)).ticker == pyUpper key) =
        (r.ticker == pyUpper key) := by
  intro r
  by_cases hr : (r.ticker == pyUpper t) = true
  · rw [if_pos hr, hticker]
  · rw [if_neg hr]

lemma dbGet_map_guard (db : List StockRecord) (t key : String)
    (g : StockRecord → StockRecord) (hticker : ∀ r, (g r).ticker = r.ticker)
    (hne : pyUpper key ≠ pyUpper t) :
    dbGet ((db : List StockRecord).map (fun r =>
      if r.ticker == pyUpper t then g r else r)) key = dbGet db key := by
  unfold dbGet
  rw [find?_map_pres _ _ (guard_pred_pres t key g hticker) db]
  cases hfk : (db : List StockRecord).find? (fun r => r.ticker == pyUpper key) with
  | none => rfl
  | some r0 =>
    rw [Option.map_some']
    have h2 : r0.ticker = pyUpper key := by
      simpa using find?_pred _ db r0 hfk
    rw [if_neg (by simp [h2]; exact hne)]

lemma dbGet_map_guard_same (db : List StockRecord) (t : String)
    (g : StockRecord → StockRecord) (hticker : ∀ r, (g r).ticker = r.ticker)
    (record : StockRecord) (hf : dbGet db t = some record) :
    dbGet ((db : List StockRecord).map (fun r =>
      if r.ticker == pyUpper t then g r else r)) t = some (g record) := by
  unfold dbGet
  rw [find?_map_pres _ _ (guard_pred_pres t t g hticker) db]
  unfold dbGet at hf
  rw [hf, Option.map_some', if_pos (find?_pred _ db record hf)]

lemma dbGet_map_guard_presence (db : List StockRecord) (t key : String)
    (g : StockRecord → StockRecord) (hticker : ∀ r, (g r).ticker = r.ticker)
    (rec : StockRecord) (h : dbGet db key = some rec) :
    ∃ rec', dbGet ((db : List StockRecord).map (fun r =>
      if r.ticker == pyUpper t then g r else r)) key = some rec' := by
  unfold dbGet
  rw [find?_map_pres _ _ (guard_pred_pres t key g hticker) db]
  unfold dbGet at h
  rw [h, Option.map_some']
  exact ⟨_, rfl⟩

lemma dbGet_congr_upper (db : DB) (key1 key2 : String)
    (h : pyUpper key1 = pyUpper key2) : dbGet db key1 = dbGet db key2 := by
  unfold dbGet
  rw [h]

lemma update_ev_result (db : DB) (t : String) (value : Option ℚ) (now : String)
    (record : StockRecord) (hf : dbGet db t = some record) :
    (update_enterprise_value db t value now).2 =
      (db : List StockRecord).map (fun r =>
        if r.ticker == pyUpper t then
          { r with
              enterprise_value := value
              fcf_yield := calculate_fcf_yield record.average_fcf value
              last_updated := now }
        else r) := by
  unfold update_enterprise_value
  rw [hf]

lemma update_ev_notfound (db : DB) (t : String) (value : Option ℚ) (now : String)
    (hf : dbGet db t = none) :
    update_enterprise_value db t value now = (false, db) := by
  unfold update_enterprise_value
  rw [hf]

lemma update_ev_get_same (db : DB) (t : String) (value : Option ℚ) (now : String)
    (record : StockRecord) (hf : dbGet db t = some record) :
    dbGet ((update_enterprise_value db t value now).2) t =
      some { record with
          enterprise_value := value
          fcf_yield := calculate_fcf_yield record.average_fcf value
          last_updated := now } := by
  rw [update_ev_result db t value now record hf]
  exact dbGet_map_guard_same db t
    (fun r : StockRecord =>
      { r with
          enterprise_value := value
          fcf_yield := calculate_fcf_yield record.average_fcf value
          last_updated := now })
    (fun r => rfl) record hf

lemma update_ev_get_other (db : DB) (t : String) (value : Option ℚ) (now : String)
    (key : String) (hne : pyUpper key ≠ pyUpper t) :
    dbGet ((update_enterprise_value db t value now).2) key = dbGet db key := by
  cases hf : dbGet db t with
  | none => rw [update_ev_notfound db t value now hf]
  | some record =>
    rw [update_ev_result db t value now record hf]
    exact dbGet_map_guard db t key
      (fun r : StockRecord =>
        { r with
            enterprise_value := value
            fcf_yield := calculate_fcf_yield record.average_fcf value
            last_updated := now })
      (fun r => rfl) hne

lemma update_ev_presence (db : DB) (t : String) (value : Option ℚ) (now : String)
    (key : String) (rec : StockRecord) (h : dbGet db key = some rec) :
    ∃ rec', dbGet ((update_enterprise_value db t value now).2) key = some rec' := by
  cases hf : dbGet db t with
  | none =>
    rw [update_ev_notfound db t value now hf]
    exact ⟨rec, h⟩
  | some record =>
    rw [update_ev_result db t value now record hf]
    exact dbGet_map_guard_presence db t key
      (fun r : StockRecord =>
        { r with
            enterprise_value := value
            fcf_yield := calculate_fcf_yield record.average_fcf value
            last_updated := now })
      (fun r => rfl) rec h

lemma refreshEVLoop_db (provider : String → Except String (Option ℚ))
    (now : String) :
    ∀ (rs : List StockRecord) (d : DB),
      (refreshEVLoop provider now d rs).1 = rs.foldl (fun d r =>
        match provider r.ticker with
        | .ok (some v) => (update_enterprise_value d r.ticker (some v) now).2
        | _ => d) d := by
  intro rs
  induction rs with
  | nil => intro d; rfl
  | cons r rest ih =>
    intro d
    rw [List.foldl_cons]
    cases hp : provider r.ticker with
    | error e =>
      simp only [refreshEVLoop, hp]
      exact ih d
    | ok v =>
      cases v with
      | none =>
        simp only [refreshEVLoop, hp]
        exact ih d
      | some x =>
        simp only [refreshEVLoop, hp]
        exact ih _

lemma refreshEVLoop_get_frame (provider : String → Except String (Option ℚ))
    (now : String) :
    ∀ (rs : List StockRecord) (d : DB) (key : String),
      (∀ r ∈ rs, pyUpper r.ticker ≠ pyUpper key) →
      dbGet (refreshEVLoop provider now d rs).1 key = dbGet d key := by
  intro rs
  induction rs with
  | nil => intro d key _; rfl
  | cons r rest ih =>
    intro d key hne
    cases hp : provider r.ticker with
    | error e =>
      simp only [refreshEVLoop, hp]
      exact ih d key (fun r' hr' => hne r' (List.mem_cons_of_mem _ hr'))
    | ok v =>
      cases v with
      | none =>
        simp only [refreshEVLoop, hp]
        exact ih d key (fun r' hr' => hne r' (List.mem_cons_of_mem _ hr'))
      | some x =>
        simp only [refreshEVLoop, hp]
        rw [ih _ key (fun r' hr' => hne r' (List.mem_cons_of_mem _ hr'))]
        exact update_ev_get_other d r.ticker (some x) now key
          (fun h => hne r (List.mem_cons_self _ _) h.symm)

lemma refreshEVLoop_updates (provider : String → Except String (Option ℚ))
    (now : String) :
    ∀ (rs : List StockRecord) (d : DB),
      (∀ r ∈ rs, pyUpper r.ticker = r.ticker) →
      List.Pairwise (fun a b : StockRecord => a.ticker ≠ b.ticker) rs →
      (∀ r ∈ rs, ∃ rec, dbGet d r.ticker = some rec) →
      ∀ r ∈ rs, ∀ v : ℚ, provider r.ticker = Except.ok (some v) →
        ∃ u, dbGet (refreshEVLoop provider now d rs).1 r.ticker = some u ∧
          u.enterprise_value = some v ∧ u.last_updated = now := by
  intro rs
  induction rs with
  | nil => intro d _ _ _ r hr; cases hr
  | cons r0 rest ih =>
    intro d hupper hpair hpres r hr v hv
    rw [List.pairwise_cons] at hpair
    rcases List.mem_cons.mp hr with rfl | hr'
    · obtain ⟨rec0, hrec0⟩ := hpres r (List.mem_cons_self _ _)
      have h1 : (refreshEVLoop provider now d (r :: rest)).1 =
          (refreshEVLoop provider now
            (update_enterprise_value d r.ticker (some v) now).2 rest).1 := by
        simp only [refreshEVLoop, hv]
      rw [h1]
      have hframe : dbGet (refreshEVLoop provider now
          (update_enterprise_value d r.ticker (some v) now).2 rest).1 r.ticker =
          dbGet ((update_enterprise_value d r.ticker (some v) now).2) r.ticker := by
        refine refreshEVLoop_get_frame provider now rest _ r.ticker ?_
        intro r' hr2
        rw [hupper r' (List.mem_cons_of_mem _ hr2),
          hupper r (List.mem_cons_self _ _)]
        exact (hpair.1 r' hr2).symm
      rw [hframe, update_ev_get_same d r.ticker (some v) now rec0 hrec0]
      exact ⟨_, rfl, rfl, rfl⟩
    · have htail : ∀ r' ∈ rest, pyUpper r'.ticker = r'.ticker :=
        fun r' h' => hupper r' (List.mem_cons_of_mem _ h')
      cases hp : provider r0.ticker with
      | error e =>
        have h1 : (refreshEVLoop provider now d (r0 :: rest)).1 =
            (refreshEVLoop provider now d rest).1 := by
          simp only [refreshEVLoop, hp]
        rw [h1]
        exact ih d htail hpair.2
          (fun r' h' => hpres r' (List.mem_cons_of_mem _ h')) r hr' v hv
      | ok w =>
        cases w with
        | none =>
          have h1 : (refreshEVLoop provider now d (r0 :: rest)).1 =
              (refreshEVLoop provider now d rest).1 := by
            simp only [refreshEVLoop, hp]
          rw [h1]
          exact ih d htail hpair.2
            (fun r' h' => hpres r' (List.mem_cons_of_mem _ h')) r hr' v hv
        | some v0 =>
          have h1 : (refreshEVLoop provider now d (r0 :: rest)).1 =
              (refreshEVLoop provider now
                (update_enterprise_value d r0.ticker (some v0) now).2 rest).1 := by
            simp only [refreshEVLoop, hp]
          rw [h1]
          refine ih _ htail hpair.2 ?_ r hr' v hv
          intro r' h'
          obtain ⟨rec, hrec⟩ := hpres r' (List.mem_cons_of_mem _ h')
          exact update_ev_presence d r0.ticker (some v0) now r'.ticker rec hrec

lemma update_fcf_get_other (db : DB) (t : String) (year : ℤ) (value : Option ℚ)
    (now : String) (key : String) (hne : pyUpper key ≠ pyUpper t) :
    ∀ res, update_fcf db t year value now = Except.ok res →
      dbGet res.2 key = dbGet db key := by
  intro res hok
  by_cases hy : (year = 2021 ∨ year = 2022 ∨ year = 2023 ∨ year = 2024 ∨ year = 2025)
  · cases hf : dbGet db t with
    | none =>
      have h2 := (update_fcf_notfound db t year value now hy hf).symm.trans hok
      obtain rfl := Except.ok.inj h2
      rfl
    | some record =>
      have h2 := (update_fcf_found db t year value now record hy hf).symm.trans hok
      obtain rfl := Except.ok.inj h2
      exact dbGet_map_guard db t key (updatedFcfRow record year value now)
        (updatedFcfRow_ticker record year value now) hne
  · have h2 := hok
    unfold update_fcf at h2
    rw [if_pos hy] at h2
    cases h2

lemma foldFcfYears_spec (t now : String) :
    ∀ (L : List (ℤ × Option ℚ)),
      (∀ p ∈ L, p.1 = 2021 ∨ p.1 = 2022 ∨ p.1 = 2023 ∨ p.1 = 2024 ∨ p.1 = 2025) →
      List.Pairwise (fun a b : ℤ × Option ℚ => a.1 ≠ b.1) L →
      ∀ (d : DB) (u : StockRecord), dbGet d t = some u →
      ∃ d' u',
        L.foldlM (fun d p =>
          match p.2 with
          | some v => (update_fcf d t p.1 (some v) now).map (·.2)
          | none => pure d) d = Except.ok d' ∧
        dbGet d' t = some u' ∧
        (∀ (y : ℤ) (v : ℚ), (y, some v) ∈ L → getFcf u' y = some v) ∧
        (∀ y : ℤ, y ∉ L.map Prod.fst → getFcf u' y = getFcf u y) ∧
        (∀ key, pyUpper key ≠ pyUpper t → dbGet d' key = dbGet d key) := by
  intro L
  induction L with
  | nil =>
    intro _ _ d u hu
    exact ⟨d, u, rfl, hu, fun y v h => absurd h (List.not_mem_nil _),
      fun y _ => rfl, fun key _ => rfl⟩
  | cons p rest ih =>
    intro hvalid hpair d u hu
    rw [List.pairwise_cons] at hpair
    obtain ⟨y0, w0⟩ := p
    have hy0 : y0 = 2021 ∨ y0 = 2022 ∨ y0 = 2023 ∨ y0 = 2024 ∨ y0 = 2025 :=
      hvalid (y0, w0) (List.mem_cons_self _ _)
    have hvtail : ∀ p ∈ rest, p.1 = 2021 ∨ p.1 = 2022 ∨ p.1 = 2023 ∨
        p.1 = 2024 ∨ p.1 = 2025 :=
      fun p hp => hvalid p (List.mem_cons_of_mem _ hp)
    cases w0 with
    | none =>
      obtain ⟨d', u', hfold, hget, hmem, hfr, hkey⟩ := ih hvtail hpair.2 d u hu
      refine ⟨d', u', ?_, hget, ?_, ?_, hkey⟩
      · rw [List.foldlM_cons]
        exact hfold
      · intro y v hyv
        rcases List.mem_cons.mp hyv with heq | htail
        · exact absurd heq (by simp)
        · exact hmem y v htail
      · intro y hy
        refine hfr y ?_
        intro h
        exact hy (by rw [List.map_cons]; exact List.mem_cons_of_mem _ h)
    | some v0 =>
      have hupd := update_fcf_found d t y0 (some v0) now u hy0 hu
      have hget1 : dbGet ((d : List StockRecord).map (fun r =>
          if r.ticker == pyUpper t then updatedFcfRow u y0 (some v0) now r
          else r)) t = some (updatedFcfRow u y0 (some v0) now u) :=
        dbGet_map_guard_same d t (updatedFcfRow u y0 (some v0) now)
          (updatedFcfRow_ticker u y0 (some v0) now) u hu
      obtain ⟨d', u', hfold, hget, hmem, hfr, hkey⟩ :=
        ih hvtail hpair.2 _ (updatedFcfRow u y0 (some v0) now u) hget1
      refine ⟨d', u', ?_, hget, ?_, ?_, ?_⟩
      · rw [List.foldlM_cons]
        show Except.map (fun x => x.2) (update_fcf d t y0 (some v0) now) >>=
            (fun init => List.foldlM (fun d p =>
              match p.2 with
              | some v => (update_fcf d t p.1 (some v) now).map (·.2)
              | none => pure d) init rest) = Except.ok d'
        rw [hupd]
        exact hfold
      · intro y v hyv
        rcases List.mem_cons.mp hyv with heq | htail
        · injection heq with h1 h2
          injection h2 with h2
          rw [h1, h2]
          have hy0notin : y0 ∉ rest.map Prod.fst := by
            intro hin
            obtain ⟨q, hq, hq1⟩ := List.mem_map.mp hin
            exact (hpair.1 q hq) hq1.symm
          rw [hfr y0 hy0notin]
          show getFcf (setFcf u y0 (some v0)) y0 = some v0
          exact getFcf_setFcf_same u y0 (some v0) hy0
        · exact hmem y v htail
      · intro y hy
        have h1 : y ≠ y0 := by
          intro h
          exact hy (by rw [List.map_cons, h]; exact List.mem_cons_self _ _)
        have h2 : y ∉ rest.map Prod.fst := by
          intro h
          exact hy (by rw [List.map_cons]; exact List.mem_cons_of_mem _ h)
        rw [hfr y h2]
        show getFcf (setFcf u y0 (some v0)) y = getFcf u y
        exact getFcf_setFcf_other u y0 (some v0) y h1
      · intro key hne
        rw [hkey key hne]
        exact dbGet_map_guard d t key (updatedFcfRow u y0 (some v0) now)
          (updatedFcfRow_ticker u y0 (some v0) now) hne

lemma applyFcfYears_spec (db : DB) (t : String) (fcf : FreeCashFlowData)
    (now : String) (u : StockRecord) (hu : dbGet db t = some u) :
    ∃ d' u', applyFcfYears db t fcf now = Except.ok d' ∧
      dbGet d' t = some u' ∧
      (∀ v, fcf.fcf_2025 = some v → getFcf u' 2025 = some v) ∧
      (∀ v, fcf.fcf_2024 = some v → getFcf u' 2024 = some v) ∧
      (∀ v, fcf.fcf_2023 = some v → getFcf u' 2023 = some v) ∧
      (∀ v, fcf.fcf_2022 = some v → getFcf u' 2022 = some v) ∧
      (∀ v, fcf.fcf_2021 = some v → getFcf u' 2021 = some v) ∧
      (∀ key, pyUpper key ≠ pyUpper t → dbGet d' key = dbGet db key) := by
  obtain ⟨d', u', hfold, hget, hmem, hfr, hkey⟩ := foldFcfYears_spec t now
    [(2025, fcf.fcf_2025), (2024, fcf.fcf_2024), (2023, fcf.fcf_2023),
     (2022, fcf.fcf_2022), (2021, fcf.fcf_2021)]
    (by
      intro p hp
      simp only [List.mem_cons, List.not_mem_nil, or_false] at hp
      rcases hp with rfl | rfl | rfl | rfl | rfl <;> simp)
    (by simp [List.pairwise_cons])
    db u hu
  refine ⟨d', u', ?_, hget, ?_, ?_, ?_, ?_, ?_, hkey⟩
  · unfold applyFcfYears
    exact hfold
  · intro v hv
    exact hmem 2025 v (by rw [← hv]; exact List.mem_cons_self _ _)
  · intro v hv
    refine hmem 2024 v ?_
    rw [← hv]
    exact List.mem_cons_of_mem _ (List.mem_cons_self _ _)
  · intro v hv
    refine hmem 2023 v ?_
    rw [← hv]
    exact List.mem_cons_of_mem _ (List.mem_cons_of_mem _ (List.mem_cons_self _ _))
  · intro v hv
    refine hmem 2022 v ?_
    rw [← hv]
    exact List.mem_cons_of_mem _ (List.mem_cons_of_mem _
      (List.mem_cons_of_mem _ (List.mem_cons_self _ _)))
  · intro v hv
    refine hmem 2021 v ?_
    rw [← hv]
    exact List.mem_cons_of_mem _ (List.mem_cons_of_mem _
      (List.mem_cons_of_mem _ (List.mem_cons_of_mem _ (List.mem_cons_self _ _))))

lemma foldFcf_get_other (t now key : String) (hne : pyUpper key ≠ pyUpper t) :
    ∀ (L : List (ℤ × Option ℚ)) (d d' : DB),
      L.foldlM (fun d p =>
        match p.2 with
        | some v => (update_fcf d t p.1 (some v) now).map (·.2)
        | none => pure d) d = Except.ok d' →
      dbGet d' key = dbGet d key := by
  intro L
  induction L with
  | nil =>
    intro d d' h
    obtain rfl : d = d' := Except.ok.inj h
    rfl
  | cons p rest ih =>
    intro d d' h
    rw [List.foldlM_cons] at h
    cases hw : p.2 with
    | none =>
      simp only [hw] at h
      exact ih d d' h
    | some v =>
      simp only [hw] at h
      cases hupd : update_fcf d t p.1 (some v) now with
      | error e =>
        rw [hupd] at h
        exact Except.noConfusion h
      | ok res =>
        rw [hupd] at h
        rw [ih res.2 d' h]
        exact update_fcf_get_other d t p.1 (some v) now key hne res hupd

lemma applyFcfYears_get_other (db : DB) (t : String) (fcf : FreeCashFlowData)
    (now : String) (key : String) (hne : pyUpper key ≠ pyUpper t)
    (d' : DB) (happ : applyFcfYears db t fcf now = Except.ok d') :
    dbGet d' key = dbGet db key := by
  unfold applyFcfYears at happ
  exact foldFcf_get_other t now key hne _ db d' happ

lemma refreshFcfLoop_db (provider : String → Except String FreeCashFlowData)
    (now : String) :
    ∀ (rs : List StockRecord) (d : DB),
      (refreshFcfLoop provider now d rs).1 = rs.foldl (fun d r =>
        match provider r.ticker with
        | .error _ => d
        | .ok fcf =>
          match applyFcfYears d r.ticker fcf now with
          | .ok d1 => d1
          | .error _ => d) d := by
  intro rs
  induction rs with
  | nil => intro d; rfl
  | cons r rest ih =>
    intro d
    rw [List.foldl_cons]
    cases hp : provider r.ticker with
    | error e =>
      simp only [refreshFcfLoop, hp]
      exact ih d
    | ok fcf =>
      cases happ : applyFcfYears d r.ticker fcf now with
      | error e =>
        simp only [refreshFcfLoop, hp, happ]
        exact ih d
      | ok d1 =>
        simp only [refreshFcfLoop, hp, happ]
        exact ih d1

lemma refreshFcfLoop_get_frame (provider : String → Except String FreeCashFlowData)
    (now : String) :
    ∀ (rs : List StockRecord) (d : DB) (key : String),
      (∀ r ∈ rs, pyUpper r.ticker ≠ pyUpper key) →
      dbGet (refreshFcfLoop provider now d rs).1 key = dbGet d key := by
  intro rs
  induction rs with
  | nil => intro d key _; rfl
  | cons r rest ih =>
    intro d key hne
    cases hp : provider r.ticker with
    | error e =>
      simp only [refreshFcfLoop, hp]
      exact ih d key (fun r' hr' => hne r' (List.mem_cons_of_mem _ hr'))
    | ok fcf =>
      cases happ : applyFcfYears d r.ticker fcf now with
      | error e =>
        simp only [refreshFcfLoop, hp, happ]
        exact ih d key (fun r' hr' => hne r' (List.mem_cons_of_mem _ hr'))
      | ok d1 =>
        simp only [refreshFcfLoop, hp, happ]
        rw [ih d1 key (fun r' hr' => hne r' (List.mem_cons_of_mem _ hr'))]
        exact applyFcfYears_get_other d r.ticker fcf now key
          (fun h => hne r (List.mem_cons_self _ _) h.symm) d1 happ

lemma refreshFcfLoop_updates (provider : String → Except String FreeCashFlowData)
    (now : String) :
    ∀ (rs : List StockRecord) (d : DB),
      (∀ r ∈ rs, pyUpper r.ticker = r.ticker) →
      List.Pairwise (fun a b : StockRecord => a.ticker ≠ b.ticker) rs →
      (∀ r ∈ rs, ∃ rec, dbGet d r.ticker = some rec) →
      ∀ r ∈ rs, ∀ fcf, provider r.ticker = Except.ok fcf →
        ∃ u, dbGet (refreshFcfLoop provider now d rs).1 r.ticker = some u ∧
          (∀ v, fcf.fcf_2025 = some v → getFcf u 2025 = some v) ∧
          (∀ v, fcf.fcf_2024 = some v → getFcf u 2024 = some v) ∧
          (∀ v, fcf.fcf_2023 = some v → getFcf u 2023 = some v) ∧
          (∀ v, fcf.fcf_2022 = some v → getFcf u 2022 = some v) ∧
          (∀ v, fcf.fcf_2021 = some v → getFcf u 2021 = some v) := by
  intro rs
  induction rs with
  | nil => intro d _ _ _ r hr; cases hr
  | cons r0 rest ih =>
    intro d hupper hpair hpres r hr fcf hv
    rw [List.pairwise_cons] at hpair
    have htail : ∀ r' ∈ rest, pyUpper r'.ticker = r'.ticker :=
      fun r' h' => hupper r' (List.mem_cons_of_mem _ h')
    rcases List.mem_cons.mp hr with rfl | hr'
    · obtain ⟨rec0, hrec0⟩ := hpres r (List.mem_cons_self _ _)
      obtain ⟨d1, u1, happ, hget1, c25, c24, c23, c22, c21, hkey⟩ :=
        applyFcfYears_spec d r.ticker fcf now rec0 hrec0
      have h1 : (refreshFcfLoop provider now d (r :: rest)).1 =
          (refreshFcfLoop provider now d1 rest).1 := by
        simp only [refreshFcfLoop, hv, happ]
      rw [h1]
      have hframe : dbGet (refreshFcfLoop provider now d1 rest).1 r.ticker =
          dbGet d1 r.ticker := by
        refine refreshFcfLoop_get_frame provider now rest d1 r.ticker ?_
        intro r' hr2
        rw [hupper r' (List.mem_cons_of_mem _ hr2),
          hupper r (List.mem_cons_self _ _)]
        exact (hpair.1 r' hr2).symm
      rw [hframe, hget1]
      exact ⟨u1, rfl, c25, c24, c23, c22, c21⟩
    · cases hp : provider r0.ticker with
      | error e =>
        have h1 : (refreshFcfLoop provider now d (r0 :: rest)).1 =
            (refreshFcfLoop provider now d rest).1 := by
          simp only [refreshFcfLoop, hp]
        rw [h1]
        exact ih d htail hpair.2
          (fun r' h' => hpres r' (List.mem_cons_of_mem _ h')) r hr' fcf hv
      | ok fcf0 =>
        obtain ⟨rec0, hrec0⟩ := hpres r0 (List.mem_cons_self _ _)
        obtain ⟨d1, u1, happ, hget1, _, _, _, _, _, hkey⟩ :=
          applyFcfYears_spec d r0.ticker fcf0 now rec0 hrec0
        have h1 : (refreshFcfLoop provider now d (r0 :: rest)).1 =
            (refreshFcfLoop provider now d1 rest).1 := by
          simp only [refreshFcfLoop, hp, happ]
        rw [h1]
        refine ih d1 htail hpair.2 ?_ r hr' fcf hv
        intro r' h'
        obtain ⟨rec, hrec⟩ := hpres r' (List.mem_cons_of_mem _ h')
        refine ⟨rec, ?_⟩
        rw [hkey r'.ticker ?_]
        · exact hrec
        · rw [htail r' h', hupper r0 (List.mem_cons_self _ _)]
          exact fun h => (hpair.1 r' h') h.symm

lemma insertByTicker_perm (r : StockRecord) :
    ∀ l : List StockRecord, (insertByTicker r l).Perm (r :: l) := by
  intro l
  induction l with
  | nil => exact List.Perm.refl _
  | cons x xs ih =>
    unfold insertByTicker
    split_ifs with h
    · exact List.Perm.refl _
    · exact (List.Perm.cons x ih).trans (List.Perm.swap r x xs)

lemma get_all_perm (db : DB) : (get_all db).Perm db := by
  unfold get_all
  induction db with
  | nil => exact List.Perm.refl _
  | cons r rest ih =>
    rw [List.foldr_cons]
    exact (insertByTicker_perm r _).trans (List.Perm.cons r ih)

lemma dbGet_self_present (db : DB) (r : StockRecord) (hr : r ∈ db)
    (hupper : pyUpper r.ticker = r.ticker) :
    ∃ rec, dbGet db r.ticker = some rec := by
  have hsome : ((db : List StockRecord).find?
      (fun x => x.ticker == pyUpper r.ticker)).isSome := by
    rw [List.find?_isSome]
    exact ⟨r, hr, by rw [hupper]; simp⟩
  obtain ⟨rec, hrec⟩ := Option.isSome_iff_exists.mp hsome
  exact ⟨rec, hrec⟩

/-- C8 (amended): in both refresh batches a provider exception on one
ticker is caught, counted as exactly one error, and does not prevent the
remaining tickers from being processed and updated — the resulting table
is the in-order fold of the per-ticker updates over the full record list,
skipping only the failing tickers, and (under the ticker primary key, with
canonically uppercased stored tickers) every non-failing ticker's row ends
up carrying the freshly fetched values.  In the tally, every non-failing
ticker counts as a success in the FCF batch, while in the EV batch a
non-failing ticker counts as a success exactly when the provider returned
a non-null enterprise value. -/
theorem C8_batch_tallies (db : DB)
    (evProvider : String → Except String (Option ℚ))
    (fcfProvider : String → Except String FreeCashFlowData) (now : String) :
    (refresh_enterprise_values db evProvider now).2.2 =
      (get_all db).countP (fun r => isProviderError (evProvider r.ticker)) ∧
    (refresh_enterprise_values db evProvider now).2.1 =
      (get_all db).countP (fun r => isOkSome (evProvider r.ticker)) ∧
    (refresh_fcf_values db fcfProvider now).2.2 =
      (get_all db).countP (fun r => isProviderError (fcfProvider r.ticker)) ∧
    (refresh_fcf_values db fcfProvider now).2.1 =
      (get_all db).countP (fun r => !(isProviderError (fcfProvider r.ticker))) ∧
    (refresh_enterprise_values db evProvider now).1 =
      (get_all db).foldl (fun d r =>
        match evProvider r.ticker with
        | .ok (some v) => (update_enterprise_value d r.ticker (some v) now).2
        | _ => d) db ∧
    (refresh_fcf_values db fcfProvider now).1 =
      (get_all db).foldl (fun d r =>
        match fcfProvider r.ticker with
        | .error _ => d
        | .ok fcf =>
          match applyFcfYears d r.ticker fcf now with
          | .ok d1 => d1
          | .error _ => d) db ∧
    (DBWF db → (∀ r ∈ db, pyUpper r.ticker = r.ticker) →
      ∀ r ∈ db, ∀ v : ℚ, evProvider r.ticker = Except.ok (some v) →
        ∃ u, dbGet (refresh_enterprise_values db evProvider now).1 r.ticker =
            some u ∧
          u.enterprise_value = some v ∧ u.last_updated = now) ∧
    (DBWF db → (∀ r ∈ db, pyUpper r.ticker = r.ticker) →
      ∀ r ∈ db, ∀ fcf, fcfProvider r.ticker = Except.ok fcf →
        ∃ u, dbGet (refresh_fcf_values db fcfProvider now).1 r.ticker = some u ∧
          (∀ v, fcf.fcf_2025 = some v → getFcf u 2025 = some v) ∧
          (∀ v, fcf.fcf_2024 = some v → getFcf u 2024 = some v) ∧
          (∀ v, fcf.fcf_2023 = some v → getFcf u 2023 = some v) ∧
          (∀ v, fcf.fcf_2022 = some v → getFcf u 2022 = some v) ∧
          (∀ v, fcf.fcf_2021 = some v → getFcf u 2021 = some v)) := by
  have hperm := get_all_perm db
  refine ⟨(refreshEVLoop_spec evProvider now (get_all db) db).2,
    (refreshEVLoop_spec evProvider now (get_all db) db).1,
    (refreshFcfLoop_spec fcfProvider now (get_all db) db).2,
    (refreshFcfLoop_spec fcfProvider now (get_all db) db).1,
    refreshEVLoop_db evProvider now (get_all db) db,
    refreshFcfLoop_db fcfProvider now (get_all db) db,
    ?_, ?_⟩
  · intro hwf hupper r hr v hv
    have hupperAll : ∀ r' ∈ get_all db, pyUpper r'.ticker = r'.ticker :=
      fun r' hr' => hupper r' (hperm.mem_iff.mp hr')
    have hpairAll : List.Pairwise
        (fun a b : StockRecord => a.ticker ≠ b.ticker) (get_all db) :=
      (hperm.pairwise_iff Ne.symm).mpr hwf
    have hpresAll : ∀ r' ∈ get_all db, ∃ rec, dbGet db r'.ticker = some rec :=
      fun r' hr' => dbGet_self_present db r' (hperm.mem_iff.mp hr')
        (hupperAll r' hr')
    exact refreshEVLoop_updates evProvider now (get_all db) db
      hupperAll hpairAll hpresAll r (hperm.mem_iff.mpr hr) v hv
  · intro hwf hupper r hr fcf hv
    have hupperAll : ∀ r' ∈ get_all db, pyUpper r'.ticker = r'.ticker :=
      fun r' hr' => hupper r' (hperm.mem_iff.mp hr')
    have hpairAll : List.Pairwise
        (fun a b : StockRecord => a.ticker ≠ b.ticker) (get_all db) :=
      (hperm.pairwise_iff Ne.symm).mpr hwf
    have hpresAll : ∀ r' ∈ get_all db, ∃ rec, dbGet db r'.ticker = some rec :=
      fun r' hr' => dbGet_self_present db r' (hperm.mem_iff.mp hr')
        (hupperAll r' hr')
    exact refreshFcfLoop_updates fcfProvider now (get_all db) db
      hupperAll hpairAll hpresAll r (hperm.mem_iff.mpr hr) fcf hv

/-- A second stored row used by the C8 witness. -/
def exRow2 : StockRecord :=
  { ticker := "MSFT", company_name := "Microsoft", enterprise_value := some 500,
    fcf_2025 := none, fcf_2024 := none, fcf_2023 := none, fcf_2022 := none,
    fcf_2021 := none, average_fcf := none, fcf_yield := none,
    last_updated := "t0" }

/-- Witness for C8 (amended): in a two-ticker EV batch where MSFT's
provider call throws, the non-failing AAPL row is still updated with the
freshly fetched enterprise value and timestamp. -/
theorem C8_batch_tallies_witness :
    ∃ u, dbGet (refresh_enterprise_values [exRow, exRow2]
        (fun t => if t == "AAPL" then Except.ok (some 700)
          else Except.error "network down") "t1").1 exRow.ticker = some u ∧
      u.enterprise_value = some 700 ∧ u.last_updated = "t1" :=
  (C8_batch_tallies [exRow, exRow2]
    (fun t => if t == "AAPL" then Except.ok (some 700)
      else Except.error "network down")
    (fun _ => Except.error "unused") "t1").2.2.2.2.2.2.1
    (by simp [DBWF, exRow, exRow2]) (by decide) exRow
    (List.mem_cons_self _ _) 700 (by rfl)

/-- Counterexample to C8 as stated: a one-ticker EV refresh batch whose
provider throws nothing but returns a null enterprise value reports
success = 0, although the batch has one non-failing ticker — so "every
non-failing ticker counts as a success" fails for the EV batch. -/
theorem C8_counterexample :
    (refresh_enterprise_values [exRow]
        (fun _ => Except.ok (none : Option ℚ)) "t1").2.1 ≠
      (get_all [exRow]).countP
        (fun r => !(isProviderError
          ((fun _ : String => Except.ok (none : Option ℚ)) r.ticker))) := by
  decide

end ValueInvesting
